import Mathlib

/-
  Verification of the VC4C instruction-lowering stage:
  type-conversion engine (src/intermediate/TypeConversions.cpp) and the
  LLVM instruction mapper (src/llvm/LLVMInstruction.cpp).

  The development has two layers:
  * a value-level embedding of the bit-cast algorithms, tracking the SSA
    dataflow of `insertCombiningBitcast` / `insertSplittingBitcast` on
    16-lane vectors of 32-bit naturals;
  * an emission-level embedding tracking the instructions appended and the
    insertion-cursor position of every engine operation and every
    `mapInstruction` lowering rule.
-/

namespace VC4C

/-- The 32-bit lane modulus of the target ALU (spec section 1: 32-bit-lane ALU). -/
def W32 : Nat := 2 ^ 32

/-- A SIMD register value: 16 parallel lanes of 32-bit naturals, indexed by
lane number.  Lanes are addressed by arbitrary `Nat`; only lanes `< 16` are
meaningful. -/
def Vec : Type := Nat → Nat

/-- Modelled from the spec: the consumed lane primitive
`rotate(vector, amount, Direction::DOWN)` of section 6 (implemented outside
the given sources, in intermediate/Helper.cpp).  Rotating down by `n` moves
the element at lane `l + n` to lane `l`, modulo the 16-lane width. -/
def rotDown (n : Nat) (v : Vec) : Vec := fun l => v ((l + n) % 16)

/-- Modelled from the spec: the lane primitive `extractLane(vector, idx) -> scalar`
of section 6. -/
def extractLane (v : Vec) (idx : Nat) : Nat := v idx

/-- Modelled from the spec: the lane primitive
`insertLane(vector, idx, scalar) -> vector` of section 6. -/
def insertLane (v : Vec) (idx : Nat) (x : Nat) : Vec :=
  fun l => if l = idx then x else v l

/-- The all-zero vector (`INT_ZERO` moved into a register). -/
def vecZero : Vec := fun _ => 0

/-- Whole-vector `OP_AND` with an immediate mask (applied per lane). -/
def vecAnd (v : Vec) (m : Nat) : Vec := fun l => v l &&& m

/-- Whole-vector `OP_SHL`: per-lane logical shift left, wrapping at the
32-bit lane width. -/
def vecShl (v : Vec) (s : Nat) : Vec := fun l => (v l <<< s) % W32

/-- Whole-vector `OP_SHR`: per-lane logical shift right. -/
def vecShr (v : Vec) (s : Nat) : Vec := fun l => v l >>> s

/-- Whole-vector `OP_OR` of two vectors. -/
def vecOr (a b : Vec) : Vec := fun l => a l ||| b l

/-- Value-level dataflow of `insertCombiningBitcast` (TypeConversions.cpp
lines 20-132): mask the source to its element width, shift each copy left by
`i * srcBits`, rotate copy `i` down by `i` lanes, OR-accumulate, then
extract every `sizeFactor`-th lane of the combined vector into the
destination. -/
def combiningBitcastVal (srcBits destBits srcWidth destWidth : Nat)
    (src : Vec) : Vec :=
  let sizeFactor := destBits / srcBits
  let shift := srcBits
  let truncatedSource := vecAnd src (2 ^ srcBits - 1)
  let shifted : Nat → Vec := fun i => vecShl truncatedSource (shift * i)
  let rotated : Nat → Vec := fun i => if i = 0 then shifted 0 else rotDown i (shifted i)
  let combinedVector :=
    (List.range sizeFactor).foldl (fun acc i => vecOr acc (rotated i)) vecZero
  let _ := srcWidth
  (List.range destWidth).foldl
    (fun destination i =>
      insertLane destination i (extractLane combinedVector (i * sizeFactor)))
    vecZero

/-- Value-level dataflow of `insertSplittingBitcast` (TypeConversions.cpp
lines 140-200): shift the whole source right by `i * destBits` and mask to
the destination element width, then assemble destination lane `i` from lane
`i / sizeFactor` of shifted copy `i % sizeFactor`. -/
def splittingBitcastVal (srcBits destBits srcWidth destWidth : Nat)
    (src : Vec) : Vec :=
  let sizeFactor := srcBits / destBits
  let shift := destBits
  let stv : Nat → Vec := fun i => vecAnd (vecShr src (shift * i)) (2 ^ destBits - 1)
  let _ := srcWidth
  (List.range destWidth).foldl
    (fun destination i =>
      insertLane destination i (extractLane (stv (i % sizeFactor)) (i / sizeFactor)))
    vecZero

/-- Value-level dataflow of `insertBitcast` (TypeConversions.cpp lines
202-238) on a defined, non-zero-initializer source: dispatch on the vector
widths; equal widths are a plain move. -/
def bitcastVal (srcBits srcWidth destBits destWidth : Nat) (src : Vec) : Vec :=
  if srcWidth > destWidth then combiningBitcastVal srcBits destBits srcWidth destWidth src
  else if srcWidth < destWidth then splittingBitcastVal srcBits destBits srcWidth destWidth src
  else src

/-- Bit `k` of the flattened raw bit pattern of a vector with `bits`-wide
elements, low-index element occupying the low bits. -/
def flatBit (bits : Nat) (v : Vec) (k : Nat) : Bool :=
  (v (k / bits)).testBit (k % bits)

/-- The legal scalar bit widths handled by this stage (spec section 3;
64-bit values are truncated to 32 bits before this stage). -/
def LegalBits (b : Nat) : Prop := b = 8 ∨ b = 16 ∨ b = 32

/-- The OR-accumulation `combinedVector` loop, as a scalar fold. -/
def orFold (f : Nat → Nat) (n : Nat) : Nat :=
  (List.range n).foldl (fun x i => x ||| f i) 0

/-- The `int16x4` source vector of the combining example in the spec. -/
def ex16x4 : Vec := fun l => [0x1111, 0x2222, 0x3333, 0x4444].getD l 0

/-- The `int32x2` source vector of the splitting example in the spec. -/
def ex32x2 : Vec := fun l => [0x22221111, 0x44443333].getD l 0

/-! ### Shared IR data model (LLVMInstruction.cpp / TypeConversions.cpp) -/

/-- The register-file membership flags of a physical register
(`RegisterFile::PHYSICAL_A` / `PHYSICAL_B` / `ACCUMULATOR`). -/
structure RegFile where
  physA : Bool
  physB : Bool
  accum : Bool
deriving DecidableEq

/-- The complex-type annotation of a `DataType`: `simple` means no complex
part (scalar or vector), a `PointerType` is one of VC4C's complex types, and
`complexOther` covers arrays, structs and images. -/
inductive TyKind where
  | simple
  | pointer
  | complexOther
deriving DecidableEq

/-- Shallow model of `DataType`: scalar bit width, vector width, float tag
and the complex-type annotation. -/
structure DataTy where
  scalarBits : Nat
  vectorWidth : Nat
  float : Bool
  kind : TyKind
deriving DecidableEq

def DataTy.isSimpleType (t : DataTy) : Bool := t.kind == TyKind.simple

def DataTy.isFloatingType (t : DataTy) : Bool := t.float

def DataTy.isPointerType (t : DataTy) : Bool := t.kind == TyKind.pointer

def DataTy.isVectorType (t : DataTy) : Bool :=
  t.kind == TyKind.simple && decide (1 < t.vectorWidth)

def DataTy.isScalarType (t : DataTy) : Bool :=
  t.kind == TyKind.simple && t.vectorWidth == 1

/-- `DataType::getScalarWidthMask()`: all bits of the scalar width set. -/
def DataTy.getScalarWidthMask (t : DataTy) : Nat := 2 ^ t.scalarBits - 1

def DataTy.toVectorType (t : DataTy) (w : Nat) : DataTy := { t with vectorWidth := w }

/-- `DataType::getElementType()` for the simple types used here. -/
def DataTy.getElementType (t : DataTy) : DataTy := t.toVectorType 1

def TYPE_INT8 : DataTy := ⟨8, 1, false, TyKind.simple⟩
def TYPE_INT16 : DataTy := ⟨16, 1, false, TyKind.simple⟩
def TYPE_INT32 : DataTy := ⟨32, 1, false, TyKind.simple⟩
def TYPE_FLOAT : DataTy := ⟨32, 1, true, TyKind.simple⟩
def TYPE_HALF : DataTy := ⟨16, 1, true, TyKind.simple⟩
def TYPE_BOOL : DataTy := ⟨1, 1, false, TyKind.simple⟩
def TYPE_VOID : DataTy := ⟨0, 1, false, TyKind.simple⟩
def TYPE_LABEL : DataTy := ⟨0, 1, false, TyKind.complexOther⟩
def TYPE_UNKNOWN : DataTy := ⟨0, 1, false, TyKind.complexOther⟩

/-- Character-list structural equality; `std::string` comparison written with
structural recursion so that concrete instances reduce in the kernel. -/
def listChEq : List Char → List Char → Bool
  | [], [] => true
  | a :: as, b :: bs => decide (a = b) && listChEq as bs
  | _, _ => false

/-- `std::string` equality (`methodName.compare(p) == 0`). -/
def strEq (a b : String) : Bool := listChEq a.data b.data

def listChPre : List Char → List Char → Bool
  | [], _ => true
  | _ :: _, [] => false
  | a :: as, b :: bs => decide (a = b) && listChPre as bs

/-- `methodName.find(p) == 0`: does `s` start with `p`? -/
def strStarts (s p : String) : Bool := listChPre p.data s.data

def strIsEmpty (s : String) : Bool :=
  match s.data with
  | [] => true
  | _ => false

/-- Kinds of `Local` relevant to this stage. -/
inductive LocalKind where
  | plain
  | stackAllocation
  | parameter
deriving DecidableEq

mutual
/-- Shallow model of `Local`: process-unique id, name, type, kind, the
non-owning alias back-reference `(baseLocal, byteOffset)` and (for the
lifetime-intrinsic lowering) the result of `Value::getSingleWriter()`. -/
inductive Local where
  | mk (id : Nat) (lname : String) (lty : DataTy) (lkind : LocalKind)
      (lreference : Option (Local × Int)) (lsingleWriter : Option Writer)

/-- The single writing instruction of a local, as far as the lowering
inspects it: a plain move (with its source value) or any other instruction. -/
inductive Writer where
  | move (source : Value)
  | otherInstr

/-- Shallow model of `Value`: literal (with its raw 32-bit pattern), local,
register, or undefined. -/
inductive Value where
  | lit (raw : Nat) (ty : DataTy)
  | loc (l : Local) (ty : DataTy)
  | reg (rname : String) (file : RegFile) (ty : DataTy)
  | undef (ty : DataTy)
end

def Local.lid : Local → Nat
  | .mk i _ _ _ _ _ => i

def Local.name : Local → String
  | .mk _ n _ _ _ _ => n

def Local.ty : Local → DataTy
  | .mk _ _ t _ _ _ => t

def Local.kind : Local → LocalKind
  | .mk _ _ _ k _ _ => k

def Local.reference : Local → Option (Local × Int)
  | .mk _ _ _ _ r _ => r

def Local.singleWriter : Local → Option Writer
  | .mk _ _ _ _ _ w => w

/-- `Local::is<StackAllocation>()`. -/
def Local.isStackAllocation (l : Local) : Bool := l.kind == LocalKind.stackAllocation

/-- `Local::createReference()`. -/
def Local.createReference (l : Local) : Value := Value.loc l l.ty

def Value.ty : Value → DataTy
  | .lit _ t => t
  | .loc _ t => t
  | .reg _ _ t => t
  | .undef t => t

/-- `Value::getLiteralValue()`, as the raw 32-bit pattern of the literal. -/
def Value.getLiteralValue : Value → Option Nat
  | .lit r _ => some r
  | _ => none

def Value.isUndefined : Value → Bool
  | .undef _ => true
  | _ => false

/-- `Value::isZeroInitializer()` for the value shapes modelled here. -/
def Value.isZeroInitializer : Value → Bool
  | .lit 0 _ => true
  | _ => false

/-- `Value::hasType(ValueType::LOCAL)` plus the `local` member, combined. -/
def Value.localOf : Value → Option Local
  | .loc l _ => some l
  | _ => none

/-- `Value::hasLiteral(Literal(n))` for the value shapes modelled here. -/
def Value.hasLiteral (v : Value) (n : Nat) : Bool :=
  match v with
  | .lit r _ => r == n
  | _ => false

/-- `src.hasType(ValueType::REGISTER) && (has_flag(src.reg.file, PHYSICAL_A)
|| has_flag(src.reg.file, ACCUMULATOR))`. -/
def Value.isRegFileAOrAccum : Value → Bool
  | .reg _ f _ => f.physA || f.accum
  | _ => false

/-- `Value::operator==` against the `BOOL_TRUE` constant. -/
def Value.isBoolTrue : Value → Bool
  | .lit r t => r == 1 && t == TYPE_BOOL
  | _ => false

def INT_ZERO : Value := Value.lit 0 TYPE_INT32
def BOOL_TRUE : Value := Value.lit 1 TYPE_BOOL
def UNDEFINED_VALUE : Value := Value.undef TYPE_UNKNOWN
def NOP_REGISTER : Value := Value.reg "nop" ⟨false, false, false⟩ TYPE_UNKNOWN

/-- `Literal::signedInt()`: the raw 32-bit pattern read as a two's-complement
signed integer. -/
def signedInt (raw : Nat) : Int :=
  if raw < 2 ^ 31 then (raw : Int) else (raw : Int) - 2 ^ 32

/-- The raw 32-bit pattern of an integer (`Literal(int32_t)`). -/
def intToRaw (x : Int) : Nat := (x % 2 ^ 32).toNat

/-- `saturate<intN_t>`: clamp a signed value to the signed `bits`-bit range
(explicit fixed-width arithmetic, spec section 9). -/
def satSigned (bits : Nat) (x : Int) : Int :=
  max (-(2 ^ (bits - 1))) (min (2 ^ (bits - 1) - 1) x)

/-- `saturate<uintN_t>`: clamp an unsigned value to the `bits`-bit range. -/
def satUnsigned (bits : Nat) (x : Nat) : Nat := min (2 ^ bits - 1) x

/-! ### Low-level instructions and emission state -/

inductive CondCode where
  | always
  | zeroClear
  | zeroSet
deriving DecidableEq

inductive PackMode where
  | int32ToCharTrunc
  | int32ToShortTrunc
  | uint8Saturate
  | int16Saturate
  | pack3232
  | floatToHalfTrunc
deriving DecidableEq

inductive UnpackMode where
  | charZext
  | shortSext
  | halfToFloat
deriving DecidableEq

inductive Deco where
  | unsignedResult
deriving DecidableEq

inductive MemOp where
  | copy
  | fill
  | read
  | write
deriving DecidableEq

/-- The `CompilationError` kinds raised by this subsystem, one per distinct
throw site (spec section 7). -/
inductive CompErr where
  | invalidTypeWidth
  | invalidSaturationType
  | unsupportedSaturationTarget
  | unsupportedConversion
  | unsupportedContainerOperation
  | invalidLifetimeTarget
  | argumentCountMismatch
deriving DecidableEq

/-- The low-level instructions appended by lowering.  External helpers that
live outside the given sources (`insertByteSwap`, `insertVectorShuffle`,
`insertVectorRotation`, `insertVectorExtraction`, `insertVectorInsertion`,
`insertCalculateIndices`, `insertReplication`) are modelled from the spec
(sections 2 and 6) as single consumed-primitive instructions. -/
inductive Instr where
  | move (dest src : Value) (cond : CondCode) (setFlags : Bool)
      (pack : Option PackMode) (unpack : Option UnpackMode) (decor : List Deco)
  | operation (op : String) (dest a : Value) (b : Option Value)
      (cond : CondCode) (setFlags : Bool)
      (pack : Option PackMode) (unpack : Option UnpackMode) (decor : List Deco)
  | intrinsicOp (op : String) (dest a : Value) (b : Option Value) (decor : List Deco)
  | loadImm (dest : Value) (imm : Nat)
  | comparison (comp : String) (dest a b : Value) (decor : List Deco)
  | memoryInstr (mop : MemOp) (dest src : Value) (numEntries : Option Value)
  | memoryBarrier (scope : Nat)
  | branch (target : Local) (cond : CondCode) (arg : Value)
  | branchLabel (label : Local)
  | lifetimeBoundary (ptr : Value) (isLifetimeEnd : Bool)
  | methodCall (dest : Option Value) (mname : String) (args : List Value) (decor : List Deco)
  | phiNode (dest : Value) (labels : List (Value × Local))
  | ret (val : Option Value)
  | byteSwap (dest src : Value)
  | vectorShuffle (dest v1 v2 mask : Value)
  | vectorInsertion (container index newVal : Value)
  | vectorExtraction (container index dest : Value)
  | vectorRotation (src offset dest : Value)
  | calcIndices (container dest : Value) (indices : List Value)
  | replicateWrite (dest src : Value)

/-- `MoveOperation(dest, src)` with default condition and flags. -/
def mkMove (dest src : Value) : Instr :=
  Instr.move dest src CondCode.always false none none []

/-- `IntermediateInstruction::addDecorations`. -/
def Instr.addDecor (ins : Instr) (d : List Deco) : Instr :=
  match ins with
  | .move a b c f p u dd => .move a b c f p u (dd ++ d)
  | .operation o a b bb c f p u dd => .operation o a b bb c f p u (dd ++ d)
  | .intrinsicOp o a b bb dd => .intrinsicOp o a b bb (dd ++ d)
  | .comparison o a b bb dd => .comparison o a b bb (dd ++ d)
  | .methodCall a n ar dd => .methodCall a n ar (dd ++ d)
  | i => i

/-- `IntermediateInstruction::setPackMode`. -/
def Instr.withPack (ins : Instr) (pm : PackMode) : Instr :=
  match ins with
  | .move a b c f _ u dd => .move a b c f (some pm) u dd
  | .operation o a b bb c f _ u dd => .operation o a b bb c f (some pm) u dd
  | i => i

/-- `IntermediateInstruction::setUnpackMode`. -/
def Instr.withUnpack (ins : Instr) (um : UnpackMode) : Instr :=
  match ins with
  | .move a b c f p _ dd => .move a b c f p (some um) dd
  | .operation o a b bb c f p _ dd => .operation o a b bb c f p (some um) dd
  | i => i

/-- `instr->setFlags = SetFlag::SET_FLAGS`. -/
def Instr.withSetFlags (ins : Instr) : Instr :=
  match ins with
  | .move a b c _ p u dd => .move a b c true p u dd
  | .operation o a b bb c _ p u dd => .operation o a b bb c true p u dd
  | i => i

/-- The decorations carried by an instruction. -/
def Instr.decorOf : Instr → List Deco
  | .move _ _ _ _ _ _ d => d
  | .operation _ _ _ _ _ _ _ _ d => d
  | .intrinsicOp _ _ _ _ d => d
  | .comparison _ _ _ _ d => d
  | .methodCall _ _ _ d => d
  | _ => []

def listModify : List Instr → Nat → (Instr → Instr) → List Instr
  | [], _, _ => []
  | a :: as, 0, f => f a :: as
  | a :: as, n + 1, f => a :: listModify as n f

/-- The state of one lowering call, relative to the call: `emitted` is the
list of instructions the call has inserted so far (every insertion happens at
the walker), `pos` is the walker's offset within them (`pos = emitted.length`
means the walker is past everything inserted), `counter` feeds
`Method::addNewLocal`'s process-unique names. -/
structure EmitState where
  emitted : List Instr
  pos : Nat
  counter : Nat

def initState (c : Nat) : EmitState := ⟨[], 0, c⟩

/-- `InstructionWalker::emplace`: insert before the current position; the
walker then points at the newly inserted instruction. -/
def EmitState.emplace (s : EmitState) (i : Instr) : EmitState :=
  { s with emitted := s.emitted.insertIdx s.pos i }

/-- `InstructionWalker::nextInBlock`. -/
def EmitState.nextInBlock (s : EmitState) : EmitState := { s with pos := s.pos + 1 }

/-- A fresh local as produced by `Method::addNewLocal`. -/
def freshLocal (c : Nat) (ty : DataTy) (hint : String) : Local :=
  Local.mk c hint ty LocalKind.plain none none

/-- `Method::addNewLocal`: a fresh, process-uniquely named local. -/
def EmitState.addNewLocal (s : EmitState) (ty : DataTy) (hint : String) :
    EmitState × Local :=
  ({ s with counter := s.counter + 1 }, freshLocal s.counter ty hint)

/-- `it->...` mutation of the instruction the walker currently points to. -/
def EmitState.modifyCur (s : EmitState) (f : Instr → Instr) : EmitState :=
  { s with emitted := listModify s.emitted s.pos f }

/-- The walker sits past everything inserted so far. -/
def cursorPast (st : EmitState) : Prop := st.pos = st.emitted.length


/-! ### Type Conversion Engine, emission level (TypeConversions.cpp) -/

/-- Result of one engine operation: the instructions it inserted, the final
walker offset and the final fresh-local counter, or the raised
`CompilationError` together with whatever was inserted before the raise. -/
inductive EmitResult where
  | ok (emitted : List Instr) (pos : Nat) (counter : Nat)
  | err (emitted : List Instr) (e : CompErr)

def EmitState.done (s : EmitState) : EmitResult :=
  EmitResult.ok s.emitted s.pos s.counter

/-- The insertion cursor of an engine-operation result is past every emitted
instruction. -/
def EmitResult.advanced : EmitResult → Prop
  | .ok l p _ => p = l.length
  | .err _ _ => True

/-- The insertion cursor of an engine-operation result points AT the last
emitted instruction (one before past). -/
def EmitResult.atLast : EmitResult → Prop
  | .ok l p _ => p + 1 = l.length
  | .err _ _ => True

/-- The result emitted at least one instruction (trivially granted to
failures, which are excluded by the claims using this). -/
def EmitResult.nonEmpty : EmitResult → Prop
  | .ok l _ _ => 1 ≤ l.length
  | .err _ _ => True

def EmitResult.isErr : EmitResult → Bool
  | .ok _ _ _ => false
  | .err _ _ => true

/-- Emission model of `insertZeroExtension` (TypeConversions.cpp 240-293).
The final `it->addDecorations(UNSIGNED_RESULT); it.nextInBlock()` pair is the
`finish` continuation.  The pack/unpack modes are the hardware truncate /
zero-extend encodings (modelled from the spec, section 4.1 tables). -/
def insertZeroExtension (src dest : Value) (allowLiteral : Bool)
    (conditional : CondCode) (setFlags : Bool) (c : Nat) : EmitResult :=
  let s := initState c
  let finish : EmitState → EmitResult := fun s' =>
    ((s'.modifyCur (fun i => i.addDecor [Deco.unsignedResult])).nextInBlock).done
  if src.ty.scalarBits = 32 ∧ dest.ty.scalarBits ≤ 32 then
    let s1 := s.emplace (Instr.move dest src conditional setFlags none none [])
    if dest.ty.scalarBits = 8 then
      finish (s1.modifyCur (fun i => i.withPack PackMode.int32ToCharTrunc))
    else if dest.ty.scalarBits = 16 then
      finish (s1.modifyCur (fun i => i.withPack PackMode.int32ToShortTrunc))
    else if dest.ty.scalarBits = 32 then
      finish s1
    else
      EmitResult.err s1.emitted CompErr.invalidTypeWidth
  else if 32 ≤ dest.ty.scalarBits ∧ 32 ≤ src.ty.scalarBits then
    finish (s.emplace (Instr.move dest src conditional setFlags none none []))
  else if dest.ty.scalarBits = 32 ∧ src.isRegFileAOrAccum ∧ src.ty.scalarBits = 8 then
    finish ((s.emplace (Instr.move dest src conditional setFlags none none [])).modifyCur
      (fun i => i.withUnpack UnpackMode.charZext))
  else if allowLiteral then
    finish (s.emplace (Instr.operation "and" dest src
      (some (Value.lit src.ty.getScalarWidthMask TYPE_INT32)) conditional setFlags
      none none []))
  else
    let (s1, tmp) := s.addNewLocal TYPE_INT32 "%zext"
    let s2 := (s1.emplace (Instr.loadImm (Value.loc tmp TYPE_INT32)
      src.ty.getScalarWidthMask)).nextInBlock
    finish (s2.emplace (Instr.operation "and" dest src
      (some (Value.loc tmp TYPE_INT32)) conditional setFlags none none []))

/-- Value computed by `insertZeroExtension`, path by path: the truncating
pack modes keep the low destination bits (hardware pack semantics modelled
from the spec), the ≥32/≥32 path is a plain move, the unpack path keeps the
low byte, and both AND paths mask with the source-width mask. -/
def zextVal (sb db : Nat) (srcRegA : Bool) (v : Nat) : Except CompErr Nat :=
  if sb = 32 ∧ db ≤ 32 then
    if db = 8 then Except.ok (v % 2 ^ 8)
    else if db = 16 then Except.ok (v % 2 ^ 16)
    else if db = 32 then Except.ok v
    else Except.error CompErr.invalidTypeWidth
  else if 32 ≤ db ∧ 32 ≤ sb then Except.ok v
  else if db = 32 ∧ srcRegA ∧ sb = 8 then Except.ok (v % 2 ^ 8)
  else Except.ok (v &&& (2 ^ sb - 1))

/-- Emission model of `insertSignExtension` (TypeConversions.cpp 295-335). -/
def insertSignExtension (src dest : Value) (allowLiteral : Bool)
    (conditional : CondCode) (setFlags : Bool) (c : Nat) : EmitResult :=
  let s := initState c
  if 32 ≤ dest.ty.scalarBits ∧ 32 ≤ src.ty.scalarBits then
    ((s.emplace (Instr.move dest src conditional setFlags none none [])).nextInBlock).done
  else if dest.ty.scalarBits = 32 ∧ src.isRegFileAOrAccum ∧ src.ty.scalarBits = 16 then
    (((s.emplace (Instr.move dest src conditional setFlags none none [])).modifyCur
      (fun i => i.withUnpack UnpackMode.shortSext)).nextInBlock).done
  else
    let diff := dest.ty.scalarBits - src.ty.scalarBits
    if allowLiteral then
      let widthDiff := Value.lit diff TYPE_INT8
      let (s1, tmp) := s.addNewLocal TYPE_INT32 "%sext"
      let s2 := (s1.emplace (Instr.operation "shl" (Value.loc tmp TYPE_INT32) src
        (some widthDiff) conditional false none none [])).nextInBlock
      (((s2.emplace (Instr.operation "asr" dest (Value.loc tmp TYPE_INT32)
        (some widthDiff) conditional setFlags none none [])).nextInBlock)).done
    else
      let (s1, tmpDiff) := s.addNewLocal TYPE_INT8 "%sext"
      let s2 := (s1.emplace (Instr.loadImm (Value.loc tmpDiff TYPE_INT8) diff)).nextInBlock
      let widthDiff := Value.loc tmpDiff TYPE_INT8
      let (s3, tmp) := s2.addNewLocal TYPE_INT32 "%sext"
      let s4 := (s3.emplace (Instr.operation "shl" (Value.loc tmp TYPE_INT32) src
        (some widthDiff) conditional false none none [])).nextInBlock
      (((s4.emplace (Instr.operation "asr" dest (Value.loc tmp TYPE_INT32)
        (some widthDiff) conditional setFlags none none [])).nextInBlock)).done

/-- Emission model of `insertSaturation` (TypeConversions.cpp 337-391).
Every path returns `it.emplace(...)` directly: the returned walker points AT
the emitted move, not past it. -/
def insertSaturation (src dest : Value) (isSigned : Bool) (c : Nat) : EmitResult :=
  let s := initState c
  if ¬ dest.ty.isSimpleType = true ∨ dest.ty.isFloatingType = true then
    EmitResult.err s.emitted CompErr.invalidSaturationType
  else
    match src.getLiteralValue with
    | some raw =>
      let emitLit : Nat → EmitResult := fun bits =>
        (s.emplace (Instr.move dest
          (Value.lit (if isSigned then intToRaw (satSigned bits (signedInt raw))
            else satUnsigned bits raw) dest.ty)
          CondCode.always false none none
          (if isSigned then [] else [Deco.unsignedResult]))).done
      if dest.ty.scalarBits = 8 then emitLit 8
      else if dest.ty.scalarBits = 16 then emitLit 16
      else if dest.ty.scalarBits = 32 then emitLit 32
      else EmitResult.err s.emitted CompErr.invalidSaturationType
    | none =>
      if dest.ty.scalarBits = 8 ∧ isSigned = false then
        (s.emplace (Instr.move dest src CondCode.always false
          (some PackMode.uint8Saturate) none [Deco.unsignedResult])).done
      else if dest.ty.scalarBits = 16 ∧ isSigned = true then
        (s.emplace (Instr.move dest src CondCode.always false
          (some PackMode.int16Saturate) none [])).done
      else if dest.ty.scalarBits = 32 then
        (s.emplace (Instr.move dest src CondCode.always false
          (some PackMode.pack3232) none [])).done
      else EmitResult.err s.emitted CompErr.unsupportedSaturationTarget

/-- Emission model of `insertTruncate` (TypeConversions.cpp 393-403). -/
def insertTruncate (src dest : Value) (c : Nat) : EmitResult :=
  let s := initState c
  if src.ty.scalarBits ≤ dest.ty.scalarBits then
    ((s.emplace (mkMove dest src)).nextInBlock).done
  else
    ((s.emplace (Instr.operation "and" dest src
      (some (Value.lit dest.ty.getScalarWidthMask TYPE_INT32))
      CondCode.always false none none [])).nextInBlock).done

/-- `OpCode::getRightIdentity(OP_FMUL)`: the floating multiplicative
identity constant (raw bits of 1.0f). -/
def FLOAT_ONE : Value := Value.lit 0x3F800000 TYPE_FLOAT

/-- Emission model of `insertFloatingPointConversion`
(TypeConversions.cpp 405-419). -/
def insertFloatingPointConversion (src dest : Value) (c : Nat) : EmitResult :=
  let s := initState c
  if src.ty.scalarBits = dest.ty.scalarBits then
    ((s.emplace (mkMove dest src)).nextInBlock).done
  else if src.ty.scalarBits = 16 ∧ dest.ty.scalarBits = 32 then
    ((s.emplace ((Instr.operation "fmul" dest src (some FLOAT_ONE)
      CondCode.always false none none []).withUnpack UnpackMode.halfToFloat)).nextInBlock).done
  else if src.ty.scalarBits = 32 ∧ dest.ty.scalarBits = 16 then
    ((s.emplace ((Instr.operation "fmul" dest src (some FLOAT_ONE)
      CondCode.always false none none []).withPack PackMode.floatToHalfTrunc)).nextInBlock).done
  else
    EmitResult.err s.emitted CompErr.unsupportedConversion

/-! ### Bit-cast emission (TypeConversions.cpp 20-238) -/

/-- The shift loop of `insertCombiningBitcast` (lines 41-51): one fresh local
and one whole-vector `OP_SHL` per index, walker advanced each time; returns
the `shiftedTruncatedVectors` in order. -/
def combShiftLoop (vecTy : DataTy) (truncated : Value) (sb : Nat) :
    List Nat → EmitState → EmitState × List Value
  | [], st => (st, [])
  | i :: rest, st =>
    let (st1, r) := st.addNewLocal vecTy "%bit_cast"
    let st2 := (st1.emplace (Instr.operation "shl" (Value.loc r vecTy) truncated
      (some (Value.lit (sb * i) TYPE_INT8)) CondCode.always false none none [])).nextInBlock
    let (st3, vs) := combShiftLoop vecTy truncated sb rest st2
    (st3, Value.loc r vecTy :: vs)

/-- The rotation loop of `insertCombiningBitcast` (lines 65-80): index 0 is
reused unrotated; every other vector is rotated down by its index
(`insertVectorRotation` is the consumed lane primitive of spec section 6,
modelled as one rotate instruction with the walker advanced past it). -/
def combRotLoop (vecTy : DataTy) :
    List (Nat × Value) → EmitState → EmitState × List Value
  | [], st => (st, [])
  | (i, v) :: rest, st =>
    if i = 0 then
      let (st1, vs) := combRotLoop vecTy rest st
      (st1, v :: vs)
    else
      let (st1, r) := st.addNewLocal vecTy "%bit_cast"
      let st2 := (st1.emplace (Instr.vectorRotation v (Value.lit i TYPE_INT8)
        (Value.loc r vecTy))).nextInBlock
      let (st3, vs) := combRotLoop vecTy rest st2
      (st3, Value.loc r vecTy :: vs)

/-- The OR-accumulation loop of `insertCombiningBitcast` (lines 93-100). -/
def combOrLoop (vecTy : DataTy) (combined : Value) :
    List Value → EmitState → EmitState × Value
  | [], st => (st, combined)
  | rv :: rest, st =>
    let (st1, n) := st.addNewLocal vecTy "%bit_cast"
    let st2 := (st1.emplace (Instr.operation "or" (Value.loc n vecTy) combined
      (some rv) CondCode.always false none none [])).nextInBlock
    combOrLoop vecTy (Value.loc n vecTy) rest st2

/-- The destination-assembly loop of `insertCombiningBitcast` (lines
119-128): per destination lane one extraction of lane `i * sizeFactor` and
one insertion into lane `i` (consumed lane primitives of spec section 6, one
instruction each, walker advanced). -/
def combAsmLoop (destTy : DataTy) (combined destination : Value) (sf : Nat) :
    List Nat → EmitState → EmitState
  | [], st => st
  | i :: rest, st =>
    let (st1, tmp) := st.addNewLocal destTy "%bit_cast"
    let st2 := (st1.emplace (Instr.vectorExtraction combined
      (Value.lit (i * sf) TYPE_INT8) (Value.loc tmp destTy))).nextInBlock
    let st3 := (st2.emplace (Instr.vectorInsertion destination
      (Value.lit i TYPE_INT8) (Value.loc tmp destTy))).nextInBlock
    combAsmLoop destTy combined destination sf rest st3

/-- Emission model of `insertCombiningBitcast` (TypeConversions.cpp 20-132).
The final `it.emplace(new MoveOperation(dest, destination)); return it;`
leaves the walker pointing AT the final move; the caller advances it. -/
def insertCombiningBitcastE (s : EmitState) (src dest : Value) : EmitState :=
  let sizeFactor := dest.ty.scalarBits / src.ty.scalarBits
  let shift := src.ty.scalarBits
  let (s1, truncated) := s.addNewLocal src.ty "%bit_cast"
  let s2 := (s1.emplace (Instr.operation "and" (Value.loc truncated src.ty) src
    (some (Value.lit src.ty.getScalarWidthMask TYPE_INT32))
    CondCode.always false none none [])).nextInBlock
  let vecTy := dest.ty.toVectorType src.ty.vectorWidth
  let (s3, stvs) := combShiftLoop vecTy (Value.loc truncated src.ty) shift
    (List.range sizeFactor) s2
  let (s4, rvs) := combRotLoop vecTy stvs.enum s3
  let (s5, combinedVector) := combOrLoop vecTy INT_ZERO rvs s4
  let (s6, destination) := s5.addNewLocal dest.ty "%bit_cast"
  let s7 := (s6.emplace (mkMove (Value.loc destination dest.ty) INT_ZERO)).nextInBlock
  let s8 := combAsmLoop dest.ty combinedVector (Value.loc destination dest.ty)
    sizeFactor (List.range dest.ty.vectorWidth) s7
  s8.emplace (mkMove dest (Value.loc destination dest.ty))

/-- The shift/mask loop of `insertSplittingBitcast` (lines 156-167): per
index one fresh pair of locals, a whole-vector `OP_SHR` and a whole-vector
`OP_AND`, walker advanced after each. -/
def splitShiftLoop (destTy : DataTy) (src : Value) (db : Nat) :
    List Nat → EmitState → EmitState × List Value
  | [], st => (st, [])
  | i :: rest, st =>
    let (st1, r) := st.addNewLocal destTy "%bit_cast"
    let (st2, tmp) := st1.addNewLocal destTy "%bit_cast"
    let st3 := (st2.emplace (Instr.operation "shr" (Value.loc tmp destTy) src
      (some (Value.lit (db * i) TYPE_INT8)) CondCode.always false none none [])).nextInBlock
    let st4 := (st3.emplace (Instr.operation "and" (Value.loc r destTy)
      (Value.loc tmp destTy) (some (Value.lit destTy.getScalarWidthMask TYPE_INT32))
      CondCode.always false none none [])).nextInBlock
    let (st5, vs) := splitShiftLoop destTy src db rest st4
    (st5, Value.loc r destTy :: vs)

/-- The destination-assembly loop of `insertSplittingBitcast` (lines
186-196): destination lane `i` takes lane `i / stvs.size` of vector
`i % stvs.size`. -/
def splitAsmLoop (destTy : DataTy) (stvs : List Value) (destination : Value) :
    List Nat → EmitState → EmitState
  | [], st => st
  | i :: rest, st =>
    let stv := stvs.getD (i % stvs.length) UNDEFINED_VALUE
    let sourceElement := i / stvs.length
    let (st1, tmp) := st.addNewLocal destTy "%bit_cast"
    let st2 := (st1.emplace (Instr.vectorExtraction stv
      (Value.lit sourceElement TYPE_INT8) (Value.loc tmp destTy))).nextInBlock
    let st3 := (st2.emplace (Instr.vectorInsertion destination
      (Value.lit i TYPE_INT8) (Value.loc tmp destTy))).nextInBlock
    splitAsmLoop destTy stvs destination rest st3

/-- Emission model of `insertSplittingBitcast` (TypeConversions.cpp
140-200); as with the combining path, the walker is left pointing AT the
final move into `dest`. -/
def insertSplittingBitcastE (s : EmitState) (src dest : Value) : EmitState :=
  let sizeFactor := src.ty.scalarBits / dest.ty.scalarBits
  let shift := dest.ty.scalarBits
  let (s1, stvs) := splitShiftLoop dest.ty src shift (List.range sizeFactor) s
  let (s2, destination) := s1.addNewLocal dest.ty "%bit_cast"
  let s3 := (s2.emplace (mkMove (Value.loc destination dest.ty) INT_ZERO)).nextInBlock
  let s4 := splitAsmLoop dest.ty stvs (Value.loc destination dest.ty)
    (List.range dest.ty.vectorWidth) s3
  s4.emplace (mkMove dest (Value.loc destination dest.ty))

/-- Emission model of `insertBitcast` (TypeConversions.cpp 202-238): dispatch
on undefined / zero-initializer sources and on the vector widths, then
decorate the instruction under the walker and advance.  The pointer
alias-back-reference postcondition (lines 230-234) mutates `dest`'s local and
inserts nothing.  `insertBitcast` raises no `CompilationError`. -/
def insertBitcastE (src dest : Value) (deco : List Deco) (c : Nat) : EmitResult :=
  let s := initState c
  let s1 :=
    if src.isUndefined then s.emplace (mkMove dest UNDEFINED_VALUE)
    else if src.isZeroInitializer then s.emplace (mkMove dest INT_ZERO)
    else if dest.ty.vectorWidth < src.ty.vectorWidth then
      insertCombiningBitcastE s src dest
    else if src.ty.vectorWidth < dest.ty.vectorWidth then
      insertSplittingBitcastE s src dest
    else s.emplace ((mkMove dest src).addDecor deco)
  (((s1.modifyCur (fun i => i.addDecor deco)).nextInBlock)).done

/-! ### Instruction Lowering Mapper (LLVMInstruction.cpp) -/

/-- Result of one `mapInstruction` lowering call: the instructions appended
to the end of the function and the final fresh-local counter; `err` carries
the instructions already appended when the `CompilationError` was raised;
`ub` marks a null-pointer dereference or an out-of-range `arguments.at`
(undefined / non-`CompilationError` behavior in the C++). -/
inductive MapResult where
  | ok (emitted : List Instr) (counter : Nat)
  | err (emitted : List Instr) (e : CompErr)
  | ub

/-- The instructions a lowering call appended (`[]` for the undefined
cases). -/
def MapResult.emittedOf : MapResult → List Instr
  | .ok l _ => l
  | .err l _ => l
  | .ub => []

/-- Modelled from the spec: `OpCode::findOpCode` resolves an operator name
against the native-opcode table of OpCodes.cpp, which is outside the given
sources; only membership in the table matters to the mapper, so the table
content here is a representative fixed set. -/
def isNativeOp (opName : String) : Bool :=
  [("add" : String), "sub", "and", "or", "xor", "not", "shl", "shr", "asr",
    "min", "max", "fadd", "fsub", "fmul", "fmin", "fmax", "mul24", "v8adds"].any
    (fun n => strEq opName n)

/-- Shallow model of `CallSite` (dest may be null). -/
structure CallSite where
  dest : Option Local
  methodName : String
  returnType : DataTy
  arguments : List Value
  decorations : List Deco

/-- The destination-less `CallSite(methodName, returnType, args)`
constructor (LLVMInstruction.cpp 78-81). -/
def CallSite.noDest (mname : String) (rt : DataTy) (args : List Value) : CallSite :=
  ⟨none, mname, rt, args, []⟩

/-- The destination-carrying `CallSite(dest, methodName, returnType, args)`
constructor (LLVMInstruction.cpp 60-65). -/
def CallSite.withDest (d : Local) (mname : String) (rt : DataTy)
    (args : List Value) : CallSite :=
  ⟨some d, mname, rt, args, []⟩

/-- The `Method`-based constructors (LLVMInstruction.cpp 67-76 and 83-92)
check the declared parameter count against the supplied argument count and
raise before constructing. -/
def CallSite.ofMethod (d : Option Local) (mname : String) (rt : DataTy)
    (paramCount : Nat) (args : List Value) : Except CompErr CallSite :=
  if paramCount = args.length then Except.ok ⟨d, mname, rt, args, []⟩
  else Except.error CompErr.argumentCountMismatch

/-- `CallSite::getAllLocals` (LLVMInstruction.cpp 99-114): reads
`dest->name` before any null check, so a destination-less call site
dereferences a null pointer — modelled as `none`. -/
def CallSite.getAllLocals (cs : CallSite) : Option (List Local) :=
  match cs.dest with
  | none => none
  | some d =>
    some ((if strIsEmpty d.name then [] else [d])
      ++ cs.arguments.filterMap Value.localOf)

/-- `arguments.at(0).getLiteralValue() && arguments.at(0).getLiteralValue()
->signedInt() > 0` (LLVMInstruction.cpp 138). -/
def isPositiveLiteral (v : Value) : Bool :=
  match v.getLiteralValue with
  | some r => decide (0 < signedInt r)
  | none => false

/-- The resolution of the lifetime intrinsic's pointer argument
(LLVMInstruction.cpp 121-136): if the local is not already a stack
allocation, unwrap through a single-writer move, or else through the alias
back-reference when its base is a stack allocation (the recorded byte offset
is not inspected). -/
def lifetimeResolve (ptr : Local) (pty : DataTy) : Value :=
  if ptr.isStackAllocation then Value.loc ptr pty
  else
    match ptr.singleWriter with
    | some (Writer.move src) => src
    | _ =>
      match ptr.reference with
      | some (base, _off) =>
        if base.isStackAllocation then base.createReference else Value.loc ptr pty
      | none => Value.loc ptr pty

/-- The pointer resolution as the SPEC sentence words it ("unwrapping one
plain-move bitcast or one ZERO-OFFSET alias back-reference hop if needed"):
unlike the code, the alias hop is taken only when the recorded byte offset
is zero.  Kept solely for comparison against `lifetimeResolve`. -/
def specLifetimeResolveZeroOffset (ptr : Local) (pty : DataTy) : Value :=
  if ptr.isStackAllocation then Value.loc ptr pty
  else
    match ptr.singleWriter with
    | some (Writer.move src) => src
    | _ =>
      match ptr.reference with
      | some (base, off) =>
        if off = 0 ∧ base.isStackAllocation = true then base.createReference
        else Value.loc ptr pty
      | none => Value.loc ptr pty

/-- The positive-size check of the lifetime intrinsic (LLVMInstruction.cpp
138-148): `pointer.local->as<StackAllocation>()` on a non-local pointer is a
null dereference (`ub`); a resolved non-stack-allocation local raises
`InvalidLifetimeTarget` before anything is appended; otherwise exactly one
lifetime boundary is appended. -/
def lifetimeCheck (pointer : Value) (isEnd : Bool) (c : Nat) : MapResult :=
  match pointer with
  | Value.loc q qty =>
    if q.isStackAllocation then
      MapResult.ok [Instr.lifetimeBoundary (Value.loc q qty) isEnd] c
    else MapResult.err [] CompErr.invalidLifetimeTarget
  | _ => MapResult.ub

/-- `CallSite::mapInstruction` (LLVMInstruction.cpp 116-227): name-prefix
dispatch over the intrinsic table, else a generic call.  `insertByteSwap` and
`insertVectorShuffle` are consumed helpers outside the given sources,
modelled from the spec as one instruction each. -/
def CallSite.mapInstruction (cs : CallSite) (c : Nat) : MapResult :=
  if strStarts cs.methodName "llvm.lifetime.start"
      || strStarts cs.methodName "llvm.lifetime.end" then
    match cs.arguments.get? 1 with
    | none => MapResult.ub
    | some arg1 =>
      match arg1 with
      | Value.loc pl pty =>
        let pointer := lifetimeResolve pl pty
        match cs.arguments.get? 0 with
        | none => MapResult.ub
        | some a0 =>
          if isPositiveLiteral a0 then
            lifetimeCheck pointer (strEq cs.methodName "llvm.lifetime.end") c
          else
            MapResult.ok [Instr.lifetimeBoundary pointer
              (strEq cs.methodName "llvm.lifetime.end")] c
      | _ => MapResult.ub
  else
    let output : Value :=
      match cs.dest with
      | none => NOP_REGISTER
      | some d => Value.loc d cs.returnType
    if strStarts cs.methodName "llvm.fmuladd" then
      match cs.arguments.get? 0, cs.arguments.get? 1, cs.arguments.get? 2 with
      | some a0, some a1, some a2 =>
        let tmp := Value.loc (freshLocal c cs.returnType "%fmuladd") cs.returnType
        MapResult.ok
          [Instr.operation "fmul" tmp a0 (some a1) CondCode.always false none none [],
           Instr.operation "fadd" output tmp (some a2) CondCode.always false none none []]
          (c + 1)
      | _, _, _ => MapResult.ub
    else if strStarts cs.methodName "llvm.memcpy" then
      match cs.arguments.get? 0, cs.arguments.get? 1, cs.arguments.get? 2 with
      | some a0, some a1, some a2 =>
        MapResult.ok [Instr.memoryInstr MemOp.copy a0 a1 (some a2)] c
      | _, _, _ => MapResult.ub
    else if strStarts cs.methodName "llvm.memset" then
      match cs.arguments.get? 0, cs.arguments.get? 1, cs.arguments.get? 2,
          cs.arguments.get? 4 with
      | some a0, some a1, some a2, some _a4 =>
        -- the volatile-parameter marking mutates a parameter decoration and
        -- appends nothing
        MapResult.ok [Instr.memoryInstr MemOp.fill a0 a1 (some a2)] c
      | _, _, _, _ => MapResult.ub
    else if strStarts cs.methodName "llvm.bswap" then
      match cs.arguments.get? 0 with
      | some a0 => MapResult.ok [Instr.byteSwap output a0] c
      | none => MapResult.ub
    else if strStarts cs.methodName "shuffle2" then
      match cs.arguments.get? 0, cs.arguments.get? 1, cs.arguments.get? 2 with
      | some a0, some a1, some a2 =>
        MapResult.ok [Instr.vectorShuffle output a0 a1 a2] c
      | _, _, _ => MapResult.ub
    else if strStarts cs.methodName "mem_fence"
        || strStarts cs.methodName "read_mem_fence"
        || strStarts cs.methodName "write_mem_fence" then
      match cs.arguments.get? 0 with
      | some a0 =>
        match a0.getLiteralValue with
        | some r => MapResult.ok [Instr.memoryBarrier r] c
        | none => MapResult.ub
      | none => MapResult.ub
    else
      match cs.dest with
      | none =>
        MapResult.ok [(Instr.methodCall none cs.methodName cs.arguments []).addDecor
          cs.decorations] c
      | some _ =>
        MapResult.ok [(Instr.methodCall (some output) cs.methodName cs.arguments
          []).addDecor cs.decorations] c

/-- Shallow model of `Copy` (LLVMInstruction.cpp 239-290). -/
structure Copy where
  dest : Value
  orig : Value
  isLoadStore : Bool
  isRead : Bool
  isBitcast : Bool

def Copy.mapInstruction (cp : Copy) (c : Nat) : MapResult :=
  if cp.isBitcast then
    match insertBitcastE cp.orig cp.dest [] c with
    | EmitResult.ok l _ c' => MapResult.ok l c'
    | EmitResult.err l e => MapResult.err l e
  else if cp.isLoadStore then
    if cp.isRead then
      MapResult.ok [Instr.memoryInstr MemOp.read cp.dest cp.orig none] c
    else
      MapResult.ok [Instr.memoryInstr MemOp.write cp.dest cp.orig none] c
  else
    MapResult.ok [mkMove cp.dest cp.orig] c

/-- Shallow model of `UnaryOperator` (LLVMInstruction.cpp 292-327). -/
structure UnaryOperator where
  opCode : String
  dest : Value
  arg : Value
  decorations : List Deco

def UnaryOperator.mapInstruction (u : UnaryOperator) (c : Nat) : MapResult :=
  if isNativeOp u.opCode then
    MapResult.ok [(Instr.operation u.opCode u.dest u.arg none CondCode.always
      false none none []).addDecor u.decorations] c
  else
    MapResult.ok [(Instr.intrinsicOp u.opCode u.dest u.arg none []).addDecor
      u.decorations] c

/-- Shallow model of `BinaryOperator` (LLVMInstruction.cpp 329-356). -/
structure BinaryOperator where
  opCode : String
  dest : Value
  arg : Value
  arg2 : Value
  decorations : List Deco

def BinaryOperator.mapInstruction (b : BinaryOperator) (c : Nat) : MapResult :=
  if isNativeOp b.opCode then
    MapResult.ok [(Instr.operation b.opCode b.dest b.arg (some b.arg2)
      CondCode.always false none none []).addDecor b.decorations] c
  else
    MapResult.ok [(Instr.intrinsicOp b.opCode b.dest b.arg (some b.arg2)
      []).addDecor b.decorations] c

/-- Shallow model of `IndexOf` (LLVMInstruction.cpp 358-402);
`insertCalculateIndices` is the consumed address-arithmetic primitive of spec
section 6, modelled as one instruction. -/
structure IndexOf where
  dest : Value
  container : Value
  indices : List Value

def IndexOf.mapInstruction (x : IndexOf) (c : Nat) : MapResult :=
  MapResult.ok [Instr.calcIndices x.container x.dest x.indices] c

/-- Shallow model of the frontend `Comparison` (LLVMInstruction.cpp
404-438). -/
structure ComparisonInstr where
  dest : Local
  comp : String
  op1 : Value
  op2 : Value
  isFloat : Bool
  decorations : List Deco

def ComparisonInstr.mapInstruction (cmp : ComparisonInstr) (c : Nat) : MapResult :=
  MapResult.ok [(Instr.comparison cmp.comp cmp.dest.createReference cmp.op1 cmp.op2
    []).addDecor cmp.decorations] c

/-- Shallow model of `ContainerInsertion` (LLVMInstruction.cpp 440-487). -/
structure ContainerInsertion where
  dest : Local
  container : Value
  newValue : Value
  index : Value

/-- `ContainerInsertion::mapInstruction` (LLVMInstruction.cpp 468-487): the
whole-container copy is appended FIRST; only then is the unsupported-index
case detected and raised. -/
def ContainerInsertion.mapInstruction (ci : ContainerInsertion) (c : Nat) : MapResult :=
  let copyInstr := mkMove (Value.loc ci.dest ci.container.ty) ci.container
  if ci.container.ty.isVectorType || ci.index.hasLiteral 0 then
    MapResult.ok [copyInstr,
      Instr.vectorInsertion (Value.loc ci.dest ci.container.ty) ci.index ci.newValue] c
  else
    MapResult.err [copyInstr] CompErr.unsupportedContainerOperation

/-- Shallow model of `ContainerExtraction` (LLVMInstruction.cpp 489-528). -/
structure ContainerExtraction where
  dest : Local
  container : Value
  index : Value

def ContainerExtraction.mapInstruction (ce : ContainerExtraction) (c : Nat) : MapResult :=
  let elementType := ce.container.ty.getElementType
  if ce.container.ty.isVectorType || ce.index.hasLiteral 0 then
    MapResult.ok [Instr.vectorExtraction ce.container ce.index
      (Value.loc ce.dest elementType)] c
  else
    MapResult.err [] CompErr.unsupportedContainerOperation

/-- Shallow model of `ValueReturn` (LLVMInstruction.cpp 530-554). -/
structure ValueReturn where
  hasValue : Bool
  val : Value

def ValueReturn.unitReturn : ValueReturn := ⟨false, Value.lit 0 TYPE_VOID⟩

def ValueReturn.ofValue (v : Value) : ValueReturn := ⟨true, v⟩

def ValueReturn.mapInstruction (r : ValueReturn) (c : Nat) : MapResult :=
  if r.hasValue then MapResult.ok [Instr.ret (some r.val)] c
  else MapResult.ok [Instr.ret none] c

/-- Shallow model of `ShuffleVector` (LLVMInstruction.cpp 556-591);
`insertVectorShuffle` is modelled from the spec as one instruction. -/
structure ShuffleVector where
  dest : Value
  v1 : Value
  v2 : Value
  mask : Value

def ShuffleVector.mapInstruction (sv : ShuffleVector) (c : Nat) : MapResult :=
  MapResult.ok [Instr.vectorShuffle sv.dest sv.v1 sv.v2 sv.mask] c

/-- Shallow model of `LLVMLabel` (LLVMInstruction.cpp 593-600). -/
structure LLVMLabel where
  label : Local

def LLVMLabel.mapInstruction (lb : LLVMLabel) (c : Nat) : MapResult :=
  MapResult.ok [Instr.branchLabel lb.label] c

/-- Shallow model of the frontend `PhiNode` (LLVMInstruction.cpp 602-629). -/
structure PhiNodeInstr where
  dest : Local
  labels : List (Value × Local)

def PhiNodeInstr.mapInstruction (p : PhiNodeInstr) (c : Nat) : MapResult :=
  MapResult.ok [Instr.phiNode p.dest.createReference p.labels] c

/-- Modelled from the spec (section 6 `broadcast` primitive):
`insertReplication(it, src, dest, true)` produces the full 16-lane broadcast
of `src` into a fresh temporary and commits it into `dest` with a move,
leaving the walker past both instructions. -/
def insertReplicationE (src destination : Value) (c : Nat) : List Instr × Nat :=
  let tmpTy := src.ty.toVectorType 16
  let tmp := Value.loc (freshLocal c tmpTy "%replicate") tmpTy
  ([Instr.replicateWrite tmp src, mkMove destination tmp], c + 1)

/-- `it.previousInBlock()->setFlags = SetFlag::SET_FLAGS` applied to a freshly
emitted run of instructions: set the flags on the last one. -/
def setFlagsOnLast (l : List Instr) : List Instr :=
  listModify l (l.length - 1) Instr.withSetFlags

/-- Shallow model of `Selection` (LLVMInstruction.cpp 631-677). -/
structure Selection where
  dest : Local
  cond : Value
  opt1 : Value
  opt2 : Value

def Selection.mapInstruction (sel : Selection) (c : Nat) : MapResult :=
  if sel.cond.ty.isScalarType
      && (!sel.opt1.ty.isScalarType || !sel.opt2.ty.isScalarType) then
    let (repl, c') := insertReplicationE sel.cond NOP_REGISTER c
    MapResult.ok (setFlagsOnLast repl
      ++ [Instr.move (Value.loc sel.dest sel.opt1.ty) sel.opt1 CondCode.zeroClear
            false none none [],
          Instr.move (Value.loc sel.dest sel.opt2.ty) sel.opt2 CondCode.zeroSet
            false none none []]) c'
  else
    MapResult.ok
      [Instr.move NOP_REGISTER sel.cond CondCode.always true none none [],
       Instr.move (Value.loc sel.dest sel.opt1.ty) sel.opt1 CondCode.zeroClear
         false none none [],
       Instr.move (Value.loc sel.dest sel.opt2.ty) sel.opt2 CondCode.zeroSet
         false none none []] c

/-- Shallow model of `Branch` (LLVMInstruction.cpp 679-711). -/
structure BranchInstr where
  thenLabel : Local
  elseLabel : Option Local
  cond : Value

def BranchInstr.ofLabel (l : Local) : BranchInstr := ⟨l, none, BOOL_TRUE⟩

def BranchInstr.ofCond (cond : Value) (t e : Local) : BranchInstr :=
  ⟨t, some e, cond⟩

def BranchInstr.mapInstruction (b : BranchInstr) (c : Nat) : MapResult :=
  if b.cond.isBoolTrue then
    MapResult.ok [Instr.branch b.thenLabel CondCode.always BOOL_TRUE] c
  else
    match b.elseLabel with
    | some e =>
      MapResult.ok [Instr.branch b.thenLabel CondCode.zeroClear b.cond,
        Instr.branch e CondCode.zeroSet b.cond] c
    | none => MapResult.ub

def COMP_EQ : String := "eq"

/-- `Method::findOrCreateLocal(TYPE_LABEL, name)`: labels are identified by
name. -/
def labelLocal (n : String) : Local := Local.mk 0 n TYPE_LABEL LocalKind.plain none none

/-- Shallow model of `Switch` (LLVMInstruction.cpp 713-744); the case table
is carried in its iteration order. -/
structure SwitchInstr where
  cond : Value
  defaultLabel : String
  jumpLabels : List (Int × String)

/-- The per-case loop of `Switch::mapInstruction` (lines 730-738): for every
case one equality comparison into a fresh boolean and one flag-clear branch
to the case label. -/
def switchCases (cond : Value) : Nat → List (Int × String) → List Instr
  | _, [] => []
  | c, (v, lbl) :: rest =>
    let tmp := Value.loc (freshLocal c TYPE_BOOL "%switch") TYPE_BOOL
    Instr.comparison COMP_EQ tmp cond (Value.lit (intToRaw v) TYPE_INT32) []
      :: Instr.branch (labelLocal lbl) CondCode.zeroClear tmp
      :: switchCases cond (c + 1) rest

def SwitchInstr.mapInstruction (sw : SwitchInstr) (c : Nat) : MapResult :=
  MapResult.ok (switchCases sw.cond c sw.jumpLabels
    ++ [Instr.branch (labelLocal sw.defaultLabel) CondCode.always BOOL_TRUE])
    (c + sw.jumpLabels.length)

/-- The closed tagged variant of frontend instructions (spec section 9). -/
inductive LLVMInstr where
  | callSite (cs : CallSite)
  | copy (cp : Copy)
  | unaryOp (u : UnaryOperator)
  | binaryOp (b : BinaryOperator)
  | indexOf (x : IndexOf)
  | comparison (cmp : ComparisonInstr)
  | containerInsertion (ci : ContainerInsertion)
  | containerExtraction (ce : ContainerExtraction)
  | valueReturn (r : ValueReturn)
  | shuffleVector (sv : ShuffleVector)
  | label (lb : LLVMLabel)
  | phiNode (p : PhiNodeInstr)
  | selection (sel : Selection)
  | branch (b : BranchInstr)
  | switch (sw : SwitchInstr)

/-- The polymorphic `LLVMInstruction::mapInstruction` dispatch. -/
def LLVMInstr.mapInstruction : LLVMInstr → Nat → MapResult
  | .callSite cs, c => cs.mapInstruction c
  | .copy cp, c => cp.mapInstruction c
  | .unaryOp u, c => u.mapInstruction c
  | .binaryOp b, c => b.mapInstruction c
  | .indexOf x, c => x.mapInstruction c
  | .comparison cmp, c => cmp.mapInstruction c
  | .containerInsertion ci, c => ci.mapInstruction c
  | .containerExtraction ce, c => ce.mapInstruction c
  | .valueReturn r, c => r.mapInstruction c
  | .shuffleVector sv, c => sv.mapInstruction c
  | .label lb, c => lb.mapInstruction c
  | .phiNode p, c => p.mapInstruction c
  | .selection sel, c => sel.mapInstruction c
  | .branch b, c => b.mapInstruction c
  | .switch sw, c => sw.mapInstruction c

/-- Is this frontend instruction a `ContainerInsertion`? -/
def LLVMInstr.isContainerInsertion : LLVMInstr → Bool
  | .containerInsertion _ => true
  | _ => false

/-! ### Arithmetic toolbox for the bit-cast proofs -/

/-- `OP_AND` with the scalar-width mask is reduction modulo `2 ^ b`. -/
theorem and_mask_eq_mod (x b : Nat) : x &&& (2 ^ b - 1) = x % 2 ^ b := by
  apply Nat.eq_of_testBit_eq
  intro i
  rw [Nat.testBit_land, Nat.testBit_two_pow_sub_one, Nat.testBit_mod_two_pow,
    Bool.and_comm]

/-- A value below `2 ^ i` has every bit at position `i` or above clear. -/
theorem testBit_false_of_lt {x b p : Nat} (hx : x < 2 ^ b) (hp : b ≤ p) :
    x.testBit p = false := by
  cases h : x.testBit p
  · rfl
  · exact absurd (Nat.testBit_implies_ge h)
      (Nat.not_le.mpr (Nat.lt_of_lt_of_le hx (Nat.pow_le_pow_right (by omega) hp)))

theorem orFold_succ (f : Nat → Nat) (n : Nat) :
    orFold f (n + 1) = orFold f n ||| f n := by
  unfold orFold
  rw [List.range_succ, List.foldl_append]
  rfl

theorem orFold_congr {f g : Nat → Nat} (n : Nat) (h : ∀ i, i < n → f i = g i) :
    orFold f n = orFold g n := by
  induction n with
  | zero => rfl
  | succ n ih =>
    rw [orFold_succ, orFold_succ, ih (fun i hi => h i (Nat.lt_succ_of_lt hi)),
      h n (Nat.lt_succ_self n)]

theorem orFold_testBit (f : Nat → Nat) (n p : Nat) :
    ((orFold f n).testBit p = true) ↔ ∃ i, i < n ∧ (f i).testBit p = true := by
  induction n with
  | zero =>
    simp [orFold, List.range_zero, List.foldl_nil, Nat.zero_testBit]
  | succ n ih =>
    rw [orFold_succ, Nat.testBit_lor, Bool.or_eq_true, ih]
    constructor
    · rintro (⟨i, hi, h⟩ | h)
      · exact ⟨i, Nat.lt_succ_of_lt hi, h⟩
      · exact ⟨n, Nat.lt_succ_self n, h⟩
    · rintro ⟨i, hi, h⟩
      rcases Nat.lt_succ_iff_lt_or_eq.mp hi with h' | h'
      · exact Or.inl ⟨i, h', h⟩
      · exact Or.inr (h' ▸ h)

/-- Evaluating the whole-vector OR-accumulation loop at a single lane. -/
theorem vecOr_foldl_apply (g : Nat → Vec) (n : Nat) (l : Nat) :
    ((List.range n).foldl (fun acc i => vecOr acc (g i)) vecZero) l
      = orFold (fun i => g i l) n := by
  induction n with
  | zero => rfl
  | succ n ih =>
    rw [List.range_succ, List.foldl_append, orFold_succ, ← ih]
    rfl

/-- Evaluating the per-lane extract/insert assembly loop at a single lane:
later insertions never overwrite earlier ones, so lane `j` holds the value
inserted at step `j` (or the zero initialization). -/
theorem insert_foldl_apply (f : Nat → Nat) (n j : Nat) :
    ((List.range n).foldl (fun d i => insertLane d i (f i)) vecZero) j
      = if j < n then f j else 0 := by
  induction n with
  | zero => simp [vecZero]
  | succ n ih =>
    rw [List.range_succ, List.foldl_append]
    show insertLane ((List.range n).foldl (fun d i => insertLane d i (f i)) vecZero)
        n (f n) j = _
    by_cases hj : j = n
    · subst hj
      show (if j = j then f j else _) = _
      rw [if_pos rfl, if_pos (Nat.lt_succ_self j)]
    · show (if j = n then f n else _) = _
      rw [if_neg hj, ih]
      by_cases h1 : j < n
      · rw [if_pos h1, if_pos (Nat.lt_succ_of_lt h1)]
      · rw [if_neg h1, if_neg (by omega)]

theorem flat_index_mod (b s k : Nat) : (k % (b * s)) % b = k % b :=
  Nat.mod_mod_of_dvd k ⟨s, rfl⟩

theorem flat_index_div (b s k : Nat) (hb : 0 < b) :
    (k / (b * s)) * s + (k % (b * s)) / b = k / b := by
  rw [← Nat.div_div_eq_div_mul, Nat.mod_mul, Nat.add_comm,
    Nat.add_mul_div_left _ _ hb, Nat.div_eq_of_lt (Nat.mod_lt k hb), Nat.zero_add]
  exact Nat.mod_add_div' (k / b) s

theorem orFold_lt {f : Nat → Nat} {n m : Nat} (h : ∀ i, i < n → f i < 2 ^ m) :
    orFold f n < 2 ^ m := by
  apply Nat.lt_pow_two_of_testBit
  intro p hp
  cases htb : (orFold f n).testBit p
  · rfl
  · obtain ⟨i, hi, hbit⟩ := (orFold_testBit f n p).mp htb
    exact absurd (Nat.testBit_implies_ge hbit)
      (Nat.not_le.mpr (Nat.lt_of_lt_of_le (h i hi)
        (Nat.pow_le_pow_right (by omega) hp)))

/-- Closed form of the combining bit-cast at destination lane `j < destWidth`
(with `destBits = sb * sf`, `srcWidth = dw * sf`): the lane is the OR of the
masked source elements `j*sf .. j*sf + sf - 1`, element `i` shifted left by
`sb * i`. -/
theorem combining_lane (sb sf dw : Nat) (src : Vec) (hb : 0 < sb)
    (h32 : sb * sf ≤ 32) (hsw : dw * sf ≤ 16) (j : Nat) (hj : j < dw) :
    combiningBitcastVal sb (sb * sf) (dw * sf) dw src j
      = orFold (fun i => src (j * sf + i) % 2 ^ sb * 2 ^ (sb * i)) sf := by
  simp only [combiningBitcastVal]
  rw [Nat.mul_div_cancel_left _ hb]
  rw [insert_foldl_apply, if_pos hj]
  simp only [extractLane]
  rw [vecOr_foldl_apply]
  apply orFold_congr
  intro i hi
  have hlane : j * sf + i < 16 := by
    have h1 : j * sf + i < (j + 1) * sf := by rw [Nat.succ_mul]; omega
    have h2 : (j + 1) * sf ≤ dw * sf := Nat.mul_le_mul_right sf (by omega)
    omega
  have hcommon : ∀ m, vecShl (vecAnd src (2 ^ sb - 1)) (sb * i) m
      = (src m % 2 ^ sb * 2 ^ (sb * i)) % W32 := by
    intro m
    simp only [vecShl, vecAnd]
    rw [and_mask_eq_mod, Nat.shiftLeft_eq]
  have hbound : src (j * sf + i) % 2 ^ sb * 2 ^ (sb * i) < W32 := by
    have h1 : src (j * sf + i) % 2 ^ sb < 2 ^ sb :=
      Nat.mod_lt _ (Nat.two_pow_pos sb)
    have h2 : src (j * sf + i) % 2 ^ sb * 2 ^ (sb * i) < 2 ^ sb * 2 ^ (sb * i) :=
      Nat.mul_lt_mul_of_lt_of_le h1 (Nat.le_refl _) (Nat.two_pow_pos _)
    have h3 : 2 ^ sb * 2 ^ (sb * i) ≤ W32 := by
      rw [← Nat.pow_add]
      apply Nat.pow_le_pow_right (by omega)
      have : sb * (i + 1) ≤ sb * sf := Nat.mul_le_mul_left sb (by omega)
      rw [Nat.mul_add, Nat.mul_one] at this
      omega
    omega
  by_cases hi0 : i = 0
  · subst hi0
    rw [if_pos rfl, hcommon, Nat.mod_eq_of_lt (by simpa using hbound), Nat.add_zero]
  · rw [if_neg hi0]
    unfold rotDown
    rw [Nat.mod_eq_of_lt hlane, hcommon, Nat.mod_eq_of_lt hbound]

/-- Bit `p` of destination lane `j` of the combining bit-cast, as a bit of
the source vector. -/
theorem combining_lane_testBit (sb sf dw : Nat) (src : Vec) (hb : 0 < sb)
    (h32 : sb * sf ≤ 32) (hsw : dw * sf ≤ 16) (j : Nat) (hj : j < dw) (p : Nat) :
    (combiningBitcastVal sb (sb * sf) (dw * sf) dw src j).testBit p
      = (decide (p < sb * sf) && (src (j * sf + p / sb)).testBit (p % sb)) := by
  rw [combining_lane sb sf dw src hb h32 hsw j hj]
  have hterm : ∀ i, (src (j * sf + i) % 2 ^ sb * 2 ^ (sb * i)).testBit p
      = (decide (sb * i ≤ p) && (decide (p - sb * i < sb)
          && (src (j * sf + i)).testBit (p - sb * i))) := by
    intro i
    rw [← Nat.shiftLeft_eq, Nat.testBit_shiftLeft, Nat.testBit_mod_two_pow]
  by_cases hp : p < sb * sf
  · rw [decide_eq_true hp, Bool.true_and]
    have hpidx : p / sb < sf := by
      apply (Nat.div_lt_iff_lt_mul hb).mpr
      rw [Nat.mul_comm]; exact hp
    have hple : sb * (p / sb) ≤ p := Nat.mul_div_le p sb
    have hpmod := Nat.div_add_mod p sb
    have hmlt : p % sb < sb := Nat.mod_lt _ hb
    cases htgt : (src (j * sf + p / sb)).testBit (p % sb)
    · cases hLHS : (orFold (fun i => src (j * sf + i) % 2 ^ sb * 2 ^ (sb * i)) sf).testBit p
      · rfl
      · exfalso
        obtain ⟨i, hi, hbit⟩ := (orFold_testBit _ _ _).mp hLHS
        rw [hterm i] at hbit
        simp only [Bool.and_eq_true, decide_eq_true_eq] at hbit
        obtain ⟨hge, hlt, hbit⟩ := hbit
        have hieq : i = p / sb := by
          have h1 : i ≤ p / sb := (Nat.le_div_iff_mul_le hb).mpr (by rw [Nat.mul_comm]; exact hge)
          have h2 : p / sb ≤ i := by
            have hplt : p < sb * (i + 1) := by rw [Nat.mul_add, Nat.mul_one]; omega
            have := (Nat.div_lt_iff_lt_mul hb).mpr (by rw [Nat.mul_comm]; exact hplt)
            omega
          omega
        rw [hieq] at hbit
        rw [show p - sb * (p / sb) = p % sb by omega] at hbit
        rw [hbit] at htgt
        exact Bool.noConfusion htgt
    · apply (orFold_testBit _ _ _).mpr
      refine ⟨p / sb, hpidx, ?_⟩
      rw [hterm (p / sb)]
      rw [show p - sb * (p / sb) = p % sb by omega]
      simp [hple, hmlt, htgt]
  · rw [decide_eq_false hp, Bool.false_and]
    cases hLHS : (orFold (fun i => src (j * sf + i) % 2 ^ sb * 2 ^ (sb * i)) sf).testBit p
    · rfl
    · exfalso
      obtain ⟨i, hi, hbit⟩ := (orFold_testBit _ _ _).mp hLHS
      rw [hterm i] at hbit
      simp only [Bool.and_eq_true, decide_eq_true_eq] at hbit
      obtain ⟨hge, hlt, _⟩ := hbit
      have : sb * (i + 1) ≤ sb * sf := Nat.mul_le_mul_left sb (by omega)
      rw [Nat.mul_add, Nat.mul_one] at this
      omega

/-- Closed form of the splitting bit-cast at destination lane `j < destWidth`
(with `srcBits = db * sf`, `destWidth = sw * sf`): shift source element
`j / sf` right by `db * (j mod sf)` and mask to the destination width. -/
theorem splitting_lane (db sf sw : Nat) (src : Vec) (hdb : 0 < db)
    (j : Nat) (hj : j < sw * sf) :
    splittingBitcastVal (db * sf) db sw (sw * sf) src j
      = src (j / sf) >>> (db * (j % sf)) &&& (2 ^ db - 1) := by
  simp only [splittingBitcastVal]
  rw [Nat.mul_div_cancel_left _ hdb]
  rw [insert_foldl_apply, if_pos hj]
  rfl

/-- Bit `p` of destination lane `j` of the splitting bit-cast, as a bit of
the source vector. -/
theorem splitting_lane_testBit (db sf sw : Nat) (src : Vec) (hdb : 0 < db)
    (j : Nat) (hj : j < sw * sf) (p : Nat) :
    (splittingBitcastVal (db * sf) db sw (sw * sf) src j).testBit p
      = (decide (p < db) && (src (j / sf)).testBit (db * (j % sf) + p)) := by
  rw [splitting_lane db sf sw src hdb j hj, Nat.testBit_land,
    Nat.testBit_two_pow_sub_one, Nat.testBit_shiftRight, Bool.and_comm]

/-- The combining bit-cast preserves the flattened raw bit pattern. -/
theorem combining_flatBit (sb sf dw : Nat) (src : Vec) (hb : 0 < sb)
    (hsf : 0 < sf) (h32 : sb * sf ≤ 32) (hsw : dw * sf ≤ 16)
    (k : Nat) (hk : k < sb * sf * dw) :
    flatBit (sb * sf) (combiningBitcastVal sb (sb * sf) (dw * sf) dw src) k
      = flatBit sb src k := by
  have hdbpos : 0 < sb * sf := Nat.mul_pos hb hsf
  have hj : k / (sb * sf) < dw :=
    (Nat.div_lt_iff_lt_mul hdbpos).mpr (by rw [Nat.mul_comm]; exact hk)
  unfold flatBit
  rw [combining_lane_testBit sb sf dw src hb h32 hsw _ hj]
  rw [decide_eq_true (Nat.mod_lt k hdbpos), Bool.true_and]
  congr 1
  · rw [flat_index_div sb sf k hb]
  · rw [flat_index_mod sb sf k]

/-- The splitting bit-cast preserves the flattened raw bit pattern. -/
theorem splitting_flatBit (db sf sw : Nat) (src : Vec) (hdb : 0 < db)
    (k : Nat) (hk : k < db * sf * sw) :
    flatBit db (splittingBitcastVal (db * sf) db sw (sw * sf) src) k
      = flatBit (db * sf) src k := by
  have hj : k / db < sw * sf := by
    apply (Nat.div_lt_iff_lt_mul hdb).mpr
    calc k < db * sf * sw := hk
      _ = sw * sf * db := by ring
  unfold flatBit
  rw [splitting_lane_testBit db sf sw src hdb _ hj (k % db)]
  rw [decide_eq_true (Nat.mod_lt k hdb), Bool.true_and]
  congr 1
  · rw [Nat.div_div_eq_div_mul]
  · rw [Nat.mod_mul]
    ring

/-- Legal scalar widths decompose: a strictly larger legal width is an exact
multiple of the smaller one. -/
theorem legal_factor {a b : Nat} (ha : LegalBits a) (hb : LegalBits b)
    (h : a < b) : ∃ sf, 2 ≤ sf ∧ a * sf = b := by
  rcases ha with rfl | rfl | rfl <;> rcases hb with rfl | rfl | rfl <;>
    first
      | exact absurd h (by omega)
      | exact ⟨2, by omega, by omega⟩
      | exact ⟨4, by omega, by omega⟩

/-- `insertBitcast` preserves the flattened raw bit pattern for every legal
pair of equal-total-size types: no bits are invented or dropped, and the
low-index source element occupies the low bits of its destination element. -/
theorem bitcast_flatBit (sb sw db dw : Nat) (src : Vec)
    (hsb : LegalBits sb) (hdb : LegalBits db)
    (hsw : 1 ≤ sw) (hsw16 : sw ≤ 16) (hdw : 1 ≤ dw) (hdw16 : dw ≤ 16)
    (htot : sb * sw = db * dw) (k : Nat) (hk : k < sb * sw) :
    flatBit db (bitcastVal sb sw db dw src) k = flatBit sb src k := by
  have hsbpos : 0 < sb := by rcases hsb with rfl | rfl | rfl <;> omega
  have hdbpos : 0 < db := by rcases hdb with rfl | rfl | rfl <;> omega
  have hsb32 : sb ≤ 32 := by rcases hsb with rfl | rfl | rfl <;> omega
  have hdb32 : db ≤ 32 := by rcases hdb with rfl | rfl | rfl <;> omega
  rcases Nat.lt_trichotomy sw dw with hlt | heq | hgt
  · -- more destination elements: splitting path
    have hdblt : db < sb := by
      by_contra hle
      push_neg at hle
      have h1 : sb * sw ≤ db * sw := Nat.mul_le_mul_right sw hle
      have h2 : db * sw < db * dw := by
        exact Nat.mul_lt_mul_of_le_of_lt (Nat.le_refl db) hlt hdbpos
      omega
    obtain ⟨sf, hsf2, hfac⟩ := legal_factor hdb hsb hdblt
    have hwfac : sw * sf = dw := by
      have h1 : db * (sw * sf) = db * dw := by
        rw [← htot, ← hfac]; ring
      exact Nat.eq_of_mul_eq_mul_left hdbpos h1
    unfold bitcastVal
    rw [if_neg (by omega), if_pos hlt]
    have hres := splitting_flatBit db sf sw src hdbpos k
      (by rw [hfac]; exact hk)
    rw [hfac, hwfac] at hres
    exact hres
  · -- equal widths: plain move
    have hsb_eq : sb = db := by
      rw [heq] at htot
      exact Nat.eq_of_mul_eq_mul_right (by omega) htot
    unfold bitcastVal
    rw [if_neg (by omega), if_neg (by omega), hsb_eq]
  · -- more source elements: combining path
    have hsblt : sb < db := by
      by_contra hle
      push_neg at hle
      have h1 : db * dw ≤ sb * dw := Nat.mul_le_mul_right dw hle
      have h2 : sb * dw < sb * sw := by
        exact Nat.mul_lt_mul_of_le_of_lt (Nat.le_refl sb) hgt hsbpos
      omega
    obtain ⟨sf, hsf2, hfac⟩ := legal_factor hsb hdb hsblt
    have hwfac : dw * sf = sw := by
      have h1 : sb * (dw * sf) = sb * sw := by
        rw [htot, ← hfac]; ring
      exact Nat.eq_of_mul_eq_mul_left hsbpos h1
    unfold bitcastVal
    rw [if_pos hgt]
    have hres := combining_flatBit sb sf dw src hsbpos (by omega)
      (by rw [hfac]; omega) (by rw [hwfac]; omega) k
      (by rw [hfac]; omega)
    rw [hfac, hwfac] at hres
    exact hres

/-- Every destination lane of a legal bit-cast is within the destination
element range (for equal widths the bit-cast is a plain move, so the bound on
the source lane is passed along). -/
theorem bitcast_lane_lt (sb sw db dw : Nat) (src : Vec)
    (hsb : LegalBits sb) (hdb : LegalBits db)
    (hsw : 1 ≤ sw) (hsw16 : sw ≤ 16) (hdw : 1 ≤ dw)
    (htot : sb * sw = db * dw) (j : Nat) (hj : j < dw)
    (hmv : sw = dw → src j < 2 ^ db) :
    bitcastVal sb sw db dw src j < 2 ^ db := by
  have hsbpos : 0 < sb := by rcases hsb with rfl | rfl | rfl <;> omega
  have hdbpos : 0 < db := by rcases hdb with rfl | rfl | rfl <;> omega
  have hdb32 : db ≤ 32 := by rcases hdb with rfl | rfl | rfl <;> omega
  rcases Nat.lt_trichotomy sw dw with hlt | heq | hgt
  · -- splitting path: lane is masked to the destination width
    have hdblt : db < sb := by
      by_contra hle
      push_neg at hle
      have h1 : sb * sw ≤ db * sw := Nat.mul_le_mul_right sw hle
      have h2 : db * sw < db * dw :=
        Nat.mul_lt_mul_of_le_of_lt (Nat.le_refl db) hlt hdbpos
      omega
    obtain ⟨sf, hsf2, hfac⟩ := legal_factor hdb hsb hdblt
    have hwfac : sw * sf = dw := by
      have h1 : db * (sw * sf) = db * dw := by rw [← htot, ← hfac]; ring
      exact Nat.eq_of_mul_eq_mul_left hdbpos h1
    unfold bitcastVal
    rw [if_neg (by omega), if_pos hlt]
    have hres := splitting_lane db sf sw src hdbpos j (by rw [hwfac]; exact hj)
    rw [hfac, hwfac] at hres
    rw [hres]
    have h1 : src (j / sf) >>> (db * (j % sf)) &&& (2 ^ db - 1) ≤ 2 ^ db - 1 :=
      Nat.and_le_right
    have h2 : 0 < 2 ^ db := Nat.two_pow_pos db
    omega
  · -- plain move
    have hsb_eq : sb = db := by
      rw [heq] at htot
      exact Nat.eq_of_mul_eq_mul_right (by omega) htot
    unfold bitcastVal
    rw [if_neg (by omega), if_neg (by omega)]
    exact hmv heq
  · -- combining path: an OR of terms each below the destination range
    have hsblt : sb < db := by
      by_contra hle
      push_neg at hle
      have h1 : db * dw ≤ sb * dw := Nat.mul_le_mul_right dw hle
      have h2 : sb * dw < sb * sw :=
        Nat.mul_lt_mul_of_le_of_lt (Nat.le_refl sb) hgt hsbpos
      omega
    obtain ⟨sf, hsf2, hfac⟩ := legal_factor hsb hdb hsblt
    have hwfac : dw * sf = sw := by
      have h1 : sb * (dw * sf) = sb * sw := by rw [htot, ← hfac]; ring
      exact Nat.eq_of_mul_eq_mul_left hsbpos h1
    unfold bitcastVal
    rw [if_pos hgt]
    have hres := combining_lane sb sf dw src hsbpos (by rw [hfac]; omega)
      (by rw [hwfac]; omega) j hj
    rw [hfac, hwfac] at hres
    rw [hres]
    apply orFold_lt
    intro i hi
    have h1 : src (j * sf + i) % 2 ^ sb < 2 ^ sb := Nat.mod_lt _ (Nat.two_pow_pos sb)
    have h2 : src (j * sf + i) % 2 ^ sb * 2 ^ (sb * i) < 2 ^ sb * 2 ^ (sb * i) :=
      Nat.mul_lt_mul_of_lt_of_le h1 (Nat.le_refl _) (Nat.two_pow_pos _)
    have h3 : 2 ^ sb * 2 ^ (sb * i) ≤ 2 ^ db := by
      rw [← Nat.pow_add]
      apply Nat.pow_le_pow_right (by omega)
      have h4 : sb * (i + 1) ≤ sb * sf := Nat.mul_le_mul_left sb (by omega)
      rw [Nat.mul_add, Nat.mul_one] at h4
      omega
    omega

/-- Bit `p < b` of lane `j` of a vector read through the flattened pattern. -/
theorem flatBit_lane (b : Nat) (v : Vec) (j p : Nat) (hb : 0 < b)
    (hp : p < b) : flatBit b v (j * b + p) = (v j).testBit p := by
  unfold flatBit
  rw [Nat.add_comm, Nat.add_mul_div_right _ _ hb, Nat.div_eq_of_lt hp,
    Nat.zero_add, Nat.add_mul_mod_self_right, Nat.mod_eq_of_lt hp]

/-- Any width-preserving bit-cast round trip restores the original lane
values. -/
theorem bitcast_roundtrip (sb sw db dw : Nat) (src : Vec)
    (hsb : LegalBits sb) (hdb : LegalBits db)
    (hsw : 1 ≤ sw) (hsw16 : sw ≤ 16) (hdw : 1 ≤ dw) (hdw16 : dw ≤ 16)
    (htot : sb * sw = db * dw) (j : Nat) (hj : j < sw)
    (hsrc : src j < 2 ^ sb) :
    bitcastVal db dw sb sw (bitcastVal sb sw db dw src) j = src j := by
  have hsbpos : 0 < sb := by rcases hsb with rfl | rfl | rfl <;> omega
  apply Nat.eq_of_testBit_eq
  intro p
  by_cases hp : p < sb
  · have hk : j * sb + p < sb * sw := by
      have h1 : j * sb + p < (j + 1) * sb := by rw [Nat.succ_mul]; omega
      have h2 : (j + 1) * sb ≤ sw * sb := Nat.mul_le_mul_right sb (by omega)
      rw [Nat.mul_comm sb sw]
      omega
    have e1 := bitcast_flatBit db dw sb sw (bitcastVal sb sw db dw src)
      hdb hsb hdw hdw16 hsw hsw16 htot.symm (j * sb + p) (by omega)
    have e2 := bitcast_flatBit sb sw db dw src
      hsb hdb hsw hsw16 hdw hdw16 htot (j * sb + p) hk
    rw [flatBit_lane sb _ j p hsbpos hp] at e1 e2
    rw [e1, e2]
  · rw [testBit_false_of_lt hsrc (by omega)]
    apply testBit_false_of_lt _ (by omega : sb ≤ p)
    apply bitcast_lane_lt db dw sb sw (bitcastVal sb sw db dw src)
      hdb hsb hdw hdw16 hsw htot.symm j hj
    intro hweq
    have : bitcastVal sb sw db dw src = src := by
      unfold bitcastVal
      rw [if_neg (by omega), if_neg (by omega)]
    rw [this]
    exact hsrc

/-! ### Walker-invariant lemmas for the emission model -/

theorem listModify_length (l : List Instr) (n : Nat) (f : Instr → Instr) :
    (listModify l n f).length = l.length := by
  induction l generalizing n with
  | nil => rfl
  | cons a as ih =>
    cases n with
    | zero => rfl
    | succ n => simp only [listModify, List.length_cons, ih]

theorem addNewLocal_eq (st : EmitState) (ty : DataTy) (hint : String) :
    st.addNewLocal ty hint
      = ({ st with counter := st.counter + 1 }, freshLocal st.counter ty hint) := rfl

theorem emplace_emitted {st : EmitState} (i : Instr) (h : cursorPast st) :
    (st.emplace i).emitted = st.emitted ++ [i] := by
  show st.emitted.insertIdx st.pos i = st.emitted ++ [i]
  rw [h, List.insertIdx_length_self]

theorem cursorPast_emplace_next {st : EmitState} (i : Instr) (h : cursorPast st) :
    cursorPast ((st.emplace i).nextInBlock) := by
  show st.pos + 1 = (st.emplace i).emitted.length
  rw [emplace_emitted i h, List.length_append, h]
  rfl

theorem cursorPast_modifyCur {st : EmitState} (f : Instr → Instr)
    (h : cursorPast st) : cursorPast (st.modifyCur f) := by
  show st.pos = (listModify st.emitted st.pos f).length
  rw [listModify_length]
  exact h

/-- The one-before-past walker of an emplace without `nextInBlock`. -/
theorem emplace_pos_lt {st : EmitState} (i : Instr) (h : cursorPast st) :
    (st.emplace i).pos + 1 = (st.emplace i).emitted.length := by
  show st.pos + 1 = (st.emplace i).emitted.length
  rw [emplace_emitted i h, List.length_append, h]
  rfl

theorem combShiftLoop_inv (vecTy : DataTy) (tr : Value) (sb : Nat) :
    ∀ (l : List Nat) (st : EmitState), cursorPast st →
      cursorPast (combShiftLoop vecTy tr sb l st).1 := by
  intro l
  induction l with
  | nil => exact fun st h => h
  | cons i rest ih =>
    intro st h
    unfold combShiftLoop
    simp only [addNewLocal_eq]
    exact ih _ (cursorPast_emplace_next _ h)

theorem combRotLoop_inv (vecTy : DataTy) :
    ∀ (l : List (Nat × Value)) (st : EmitState), cursorPast st →
      cursorPast (combRotLoop vecTy l st).1 := by
  intro l
  induction l with
  | nil => exact fun st h => h
  | cons p rest ih =>
    intro st h
    obtain ⟨i, v⟩ := p
    unfold combRotLoop
    by_cases hi : i = 0
    · rw [if_pos hi]
      simp only
      exact ih st h
    · rw [if_neg hi]
      simp only [addNewLocal_eq]
      exact ih _ (cursorPast_emplace_next _ h)

theorem combOrLoop_inv (vecTy : DataTy) :
    ∀ (l : List Value) (combined : Value) (st : EmitState), cursorPast st →
      cursorPast (combOrLoop vecTy combined l st).1 := by
  intro l
  induction l with
  | nil => exact fun _ st h => h
  | cons rv rest ih =>
    intro combined st h
    unfold combOrLoop
    simp only [addNewLocal_eq]
    exact ih _ _ (cursorPast_emplace_next _ h)

theorem combAsmLoop_inv (destTy : DataTy) (combined destination : Value) (sf : Nat) :
    ∀ (l : List Nat) (st : EmitState), cursorPast st →
      cursorPast (combAsmLoop destTy combined destination sf l st) := by
  intro l
  induction l with
  | nil => exact fun st h => h
  | cons i rest ih =>
    intro st h
    unfold combAsmLoop
    simp only [addNewLocal_eq]
    exact ih _ (cursorPast_emplace_next _ (cursorPast_emplace_next _ h))

theorem splitShiftLoop_inv (destTy : DataTy) (src : Value) (db : Nat) :
    ∀ (l : List Nat) (st : EmitState), cursorPast st →
      cursorPast (splitShiftLoop destTy src db l st).1 := by
  intro l
  induction l with
  | nil => exact fun st h => h
  | cons i rest ih =>
    intro st h
    unfold splitShiftLoop
    simp only [addNewLocal_eq]
    exact ih _ (cursorPast_emplace_next _ (cursorPast_emplace_next _ h))

theorem splitAsmLoop_inv (destTy : DataTy) (stvs : List Value) (destination : Value) :
    ∀ (l : List Nat) (st : EmitState), cursorPast st →
      cursorPast (splitAsmLoop destTy stvs destination l st) := by
  intro l
  induction l with
  | nil => exact fun st h => h
  | cons i rest ih =>
    intro st h
    unfold splitAsmLoop
    simp only [addNewLocal_eq]
    exact ih _ (cursorPast_emplace_next _ (cursorPast_emplace_next _ h))

/-- The combining path leaves the walker pointing AT the final move into
`dest`. -/
theorem insertCombiningBitcastE_shape (s : EmitState) (src dest : Value)
    (h : cursorPast s) :
    (insertCombiningBitcastE s src dest).pos + 1
      = (insertCombiningBitcastE s src dest).emitted.length := by
  unfold insertCombiningBitcastE
  simp only [addNewLocal_eq]
  exact emplace_pos_lt _ (combAsmLoop_inv _ _ _ _ _ _
    (cursorPast_emplace_next _
      (combOrLoop_inv _ _ _ _
        (combRotLoop_inv _ _ _
          (combShiftLoop_inv _ _ _ _ _ (cursorPast_emplace_next _ h))))))

/-- The splitting path leaves the walker pointing AT the final move into
`dest`. -/
theorem insertSplittingBitcastE_shape (s : EmitState) (src dest : Value)
    (h : cursorPast s) :
    (insertSplittingBitcastE s src dest).pos + 1
      = (insertSplittingBitcastE s src dest).emitted.length := by
  unfold insertSplittingBitcastE
  simp only [addNewLocal_eq]
  exact emplace_pos_lt _ (splitAsmLoop_inv _ _ _ _ _
    (cursorPast_emplace_next _ (splitShiftLoop_inv _ _ _ _ _ h)))

theorem doneAfter (s1 : EmitState) (f : Instr → Instr)
    (h : s1.pos + 1 = s1.emitted.length) :
    ((s1.modifyCur f).nextInBlock).done.advanced
      ∧ ((s1.modifyCur f).nextInBlock).done.nonEmpty
      ∧ ((s1.modifyCur f).nextInBlock).done.isErr = false := by
  refine ⟨?_, ?_, rfl⟩
  · show s1.pos + 1 = (listModify s1.emitted s1.pos f).length
    rw [listModify_length]
    exact h
  · show 1 ≤ (listModify s1.emitted s1.pos f).length
    rw [listModify_length]
    omega

/-- `insertBitcast` never raises, emits at least one instruction and returns
the walker past everything it emitted. -/
theorem insertBitcastE_spec (src dest : Value) (deco : List Deco) (c : Nat) :
    (insertBitcastE src dest deco c).advanced
      ∧ (insertBitcastE src dest deco c).nonEmpty
      ∧ (insertBitcastE src dest deco c).isErr = false := by
  simp only [insertBitcastE]
  apply doneAfter
  split
  · exact emplace_pos_lt _ rfl
  · split
    · exact emplace_pos_lt _ rfl
    · split
      · exact insertCombiningBitcastE_shape _ _ _ rfl
      · split
        · exact insertSplittingBitcastE_shape _ _ _ rfl
        · exact emplace_pos_lt _ rfl

/-- `insertZeroExtension` always returns the walker past everything it
emitted, and every non-failing path emits at least one instruction. -/
theorem insertZeroExtension_spec (src dest : Value) (al : Bool) (cond : CondCode)
    (sf : Bool) (c : Nat) :
    (insertZeroExtension src dest al cond sf c).advanced
      ∧ (insertZeroExtension src dest al cond sf c).nonEmpty := by
  unfold insertZeroExtension
  simp only []
  repeat' split
  all_goals first
    | exact ⟨trivial, trivial⟩
    | exact ⟨rfl, Nat.succ_le_succ (Nat.zero_le _)⟩

/-- `insertZeroExtension` raises (`InvalidTypeWidth`) exactly when the source
is 32-bit and the destination width is at most 32 but not one of 8/16/32. -/
theorem insertZeroExtension_err_iff (src dest : Value) (al : Bool)
    (cond : CondCode) (sf : Bool) (c : Nat) :
    (insertZeroExtension src dest al cond sf c).isErr = true
      ↔ (src.ty.scalarBits = 32 ∧ dest.ty.scalarBits ≤ 32
          ∧ ¬ LegalBits dest.ty.scalarBits) := by
  unfold insertZeroExtension LegalBits
  simp only []
  split
  · rename_i h1
    split
    · rename_i h8
      apply iff_of_false (by simp [EmitState.done, EmitResult.isErr])
      rintro ⟨_, _, h3⟩
      exact h3 (Or.inl h8)
    · split
      · rename_i h16
        apply iff_of_false (by simp [EmitState.done, EmitResult.isErr])
        rintro ⟨_, _, h3⟩
        exact h3 (Or.inr (Or.inl h16))
      · split
        · rename_i h32
          apply iff_of_false (by simp [EmitState.done, EmitResult.isErr])
          rintro ⟨_, _, h3⟩
          exact h3 (Or.inr (Or.inr h32))
        · rename_i h8 h16 h32
          apply iff_of_true (by simp [EmitResult.isErr])
          exact ⟨h1.1, h1.2, fun hc => by rcases hc with h | h | h <;> omega⟩
  · rename_i h1
    split
    · rename_i h2
      apply iff_of_false (by simp [EmitState.done, EmitResult.isErr])
      rintro ⟨hs, hd, h3⟩
      exact h3 (Or.inr (Or.inr (by omega)))
    · split
      · rename_i h3
        apply iff_of_false (by simp [EmitState.done, EmitResult.isErr])
        rintro ⟨hs, hd, _⟩
        exact absurd hs (by omega)
      · split
        · apply iff_of_false (by simp [EmitState.done, EmitResult.isErr])
          rintro ⟨hs, hd, _⟩
          exact h1 ⟨hs, hd⟩
        · apply iff_of_false (by simp [EmitState.done, EmitResult.isErr])
          rintro ⟨hs, hd, _⟩
          exact h1 ⟨hs, hd⟩

/-- `insertSignExtension` never raises, emits at least one instruction and
returns the walker past everything it emitted. -/
theorem insertSignExtension_spec (src dest : Value) (al : Bool) (cond : CondCode)
    (sf : Bool) (c : Nat) :
    (insertSignExtension src dest al cond sf c).advanced
      ∧ (insertSignExtension src dest al cond sf c).nonEmpty
      ∧ (insertSignExtension src dest al cond sf c).isErr = false := by
  unfold insertSignExtension
  simp only []
  repeat' split
  all_goals exact ⟨rfl, Nat.succ_le_succ (Nat.zero_le _), rfl⟩

/-- `insertTruncate` never raises, emits exactly one instruction and returns
the walker past it. -/
theorem insertTruncate_spec (src dest : Value) (c : Nat) :
    (insertTruncate src dest c).advanced
      ∧ (insertTruncate src dest c).nonEmpty
      ∧ (insertTruncate src dest c).isErr = false := by
  unfold insertTruncate
  simp only []
  split
  · exact ⟨rfl, Nat.succ_le_succ (Nat.zero_le _), rfl⟩
  · exact ⟨rfl, Nat.succ_le_succ (Nat.zero_le _), rfl⟩

/-- `insertFloatingPointConversion` returns the walker past everything it
emitted, every non-failing path emits one instruction, and it raises
(`UnsupportedConversion`) exactly when the width pair is none of
equal / 16→32 / 32→16. -/
theorem insertFloatingPointConversion_spec (src dest : Value) (c : Nat) :
    (insertFloatingPointConversion src dest c).advanced
      ∧ (insertFloatingPointConversion src dest c).nonEmpty
      ∧ ((insertFloatingPointConversion src dest c).isErr = true
          ↔ ¬ (src.ty.scalarBits = dest.ty.scalarBits
            ∨ (src.ty.scalarBits = 16 ∧ dest.ty.scalarBits = 32)
            ∨ (src.ty.scalarBits = 32 ∧ dest.ty.scalarBits = 16))) := by
  unfold insertFloatingPointConversion
  simp only []
  split
  · rename_i heq
    refine ⟨rfl, Nat.succ_le_succ (Nat.zero_le _), ?_⟩
    apply iff_of_false (by simp [EmitState.done, EmitResult.isErr])
    exact fun hc => hc (Or.inl heq)
  · split
    · rename_i h1632
      refine ⟨rfl, Nat.succ_le_succ (Nat.zero_le _), ?_⟩
      apply iff_of_false (by simp [EmitState.done, EmitResult.isErr])
      exact fun hc => hc (Or.inr (Or.inl h1632))
    · split
      · rename_i h3216
        refine ⟨rfl, Nat.succ_le_succ (Nat.zero_le _), ?_⟩
        apply iff_of_false (by simp [EmitState.done, EmitResult.isErr])
        exact fun hc => hc (Or.inr (Or.inr h3216))
      · rename_i hne h1 h2
        refine ⟨trivial, trivial, ?_⟩
        apply iff_of_true (by simp [EmitResult.isErr])
        rintro (h | h | h)
        · exact hne h
        · exact h1 h
        · exact h2 h

/-- `insertSaturation` emits at least one instruction on every non-failing
path, but every path returns `it.emplace(...)` directly, so the walker ends
pointing AT the single emitted instruction (one before past). -/
theorem insertSaturation_spec (src dest : Value) (sg : Bool) (c : Nat) :
    (insertSaturation src dest sg c).atLast
      ∧ (insertSaturation src dest sg c).nonEmpty := by
  unfold insertSaturation
  simp only []
  repeat' split
  all_goals first
    | exact ⟨trivial, trivial⟩
    | exact ⟨rfl, Nat.succ_le_succ (Nat.zero_le _)⟩

/-! ## Claims -/

/-- C1: for every pair of values whose types have equal total bit size
(`scalarBits * vectorWidth`), the instruction sequence of `insertBitcast`
computes in the destination exactly the raw bit pattern of the source — no
bits invented or dropped, the low-index source element occupying the low
bits of a combined destination element — so any width-preserving round trip
`bitcast(bitcast(x,T2),T1)` restores `x`; in particular combining
`int16x4{0x1111,0x2222,0x3333,0x4444}` yields `int32x2{0x22221111,
0x44443333}` and splitting that `int32x2` yields the original `int16x4`. -/
theorem C1_insertBitcast_preserves_raw_bit_pattern :
    (∀ sb sw db dw : Nat, ∀ src : Vec, LegalBits sb → LegalBits db →
      1 ≤ sw → sw ≤ 16 → 1 ≤ dw → dw ≤ 16 → sb * sw = db * dw →
      ∀ k, k < sb * sw →
        flatBit db (bitcastVal sb sw db dw src) k = flatBit sb src k)
    ∧ (∀ sb sw db dw : Nat, ∀ src : Vec, LegalBits sb → LegalBits db →
      1 ≤ sw → sw ≤ 16 → 1 ≤ dw → dw ≤ 16 → sb * sw = db * dw →
      ∀ j, j < sw → src j < 2 ^ sb →
        bitcastVal db dw sb sw (bitcastVal sb sw db dw src) j = src j)
    ∧ (bitcastVal 16 4 32 2 ex16x4 0 = 0x22221111
      ∧ bitcastVal 16 4 32 2 ex16x4 1 = 0x44443333)
    ∧ (bitcastVal 32 2 16 4 ex32x2 0 = 0x1111
      ∧ bitcastVal 32 2 16 4 ex32x2 1 = 0x2222
      ∧ bitcastVal 32 2 16 4 ex32x2 2 = 0x3333
      ∧ bitcastVal 32 2 16 4 ex32x2 3 = 0x4444) := by
  refine ⟨?_, ?_, ⟨by decide, by decide⟩, ⟨by decide, by decide, by decide, by decide⟩⟩
  · exact fun sb sw db dw src hsb hdb h1 h2 h3 h4 ht k hk =>
      bitcast_flatBit sb sw db dw src hsb hdb h1 h2 h3 h4 ht k hk
  · exact fun sb sw db dw src hsb hdb h1 h2 h3 h4 ht j hj hs =>
      bitcast_roundtrip sb sw db dw src hsb hdb h1 h2 h3 h4 ht j hj hs

/-- Witness for C1: the general bit-preservation and round-trip statements
applied at the concrete `int16x4 → int32x2` bit-cast. -/
theorem C1_witness :
    flatBit 32 (bitcastVal 16 4 32 2 ex16x4) 17 = flatBit 16 ex16x4 17
      ∧ bitcastVal 32 2 16 4 (bitcastVal 16 4 32 2 ex16x4) 2 = ex16x4 2 :=
  ⟨C1_insertBitcast_preserves_raw_bit_pattern.1 16 4 32 2 ex16x4
      (Or.inr (Or.inl rfl)) (Or.inr (Or.inr rfl))
      (by omega) (by omega) (by omega) (by omega) rfl 17 (by omega),
    C1_insertBitcast_preserves_raw_bit_pattern.2.1 16 4 32 2 ex16x4
      (Or.inr (Or.inl rfl)) (Or.inr (Or.inr rfl))
      (by omega) (by omega) (by omega) (by omega) rfl 2 (by omega) (by decide)⟩

/-- C3 (amended): every Type Conversion Engine operation emits at least one
instruction on every non-failing path, and failures occur only for
unsupported width/type combinations; `insertBitcast`, `insertZeroExtension`,
`insertSignExtension`, `insertTruncate` and `insertFloatingPointConversion`
return the insertion cursor advanced past everything they emitted, but
`insertSaturation` returns the cursor pointing AT its emitted instruction
(one before past). -/
theorem C3_engine_totality_and_cursor :
    (∀ (src dest : Value) (deco : List Deco) (c : Nat),
      (insertBitcastE src dest deco c).advanced
        ∧ (insertBitcastE src dest deco c).nonEmpty
        ∧ (insertBitcastE src dest deco c).isErr = false)
    ∧ (∀ (src dest : Value) (al : Bool) (cond : CondCode) (sf : Bool) (c : Nat),
      (insertZeroExtension src dest al cond sf c).advanced
        ∧ (insertZeroExtension src dest al cond sf c).nonEmpty
        ∧ ((insertZeroExtension src dest al cond sf c).isErr = true
            ↔ (src.ty.scalarBits = 32 ∧ dest.ty.scalarBits ≤ 32
                ∧ ¬ LegalBits dest.ty.scalarBits)))
    ∧ (∀ (src dest : Value) (al : Bool) (cond : CondCode) (sf : Bool) (c : Nat),
      (insertSignExtension src dest al cond sf c).advanced
        ∧ (insertSignExtension src dest al cond sf c).nonEmpty
        ∧ (insertSignExtension src dest al cond sf c).isErr = false)
    ∧ (∀ (src dest : Value) (c : Nat),
      (insertTruncate src dest c).advanced
        ∧ (insertTruncate src dest c).nonEmpty
        ∧ (insertTruncate src dest c).isErr = false)
    ∧ (∀ (src dest : Value) (c : Nat),
      (insertFloatingPointConversion src dest c).advanced
        ∧ (insertFloatingPointConversion src dest c).nonEmpty
        ∧ ((insertFloatingPointConversion src dest c).isErr = true
            ↔ ¬ (src.ty.scalarBits = dest.ty.scalarBits
              ∨ (src.ty.scalarBits = 16 ∧ dest.ty.scalarBits = 32)
              ∨ (src.ty.scalarBits = 32 ∧ dest.ty.scalarBits = 16))))
    ∧ (∀ (src dest : Value) (sg : Bool) (c : Nat),
      (insertSaturation src dest sg c).atLast
        ∧ (insertSaturation src dest sg c).nonEmpty) :=
  ⟨insertBitcastE_spec,
    fun src dest al cond sf c =>
      ⟨(insertZeroExtension_spec src dest al cond sf c).1,
        (insertZeroExtension_spec src dest al cond sf c).2,
        insertZeroExtension_err_iff src dest al cond sf c⟩,
    insertSignExtension_spec, insertTruncate_spec,
    insertFloatingPointConversion_spec, insertSaturation_spec⟩

/-- Counterexample to C3 as stated: `insertSaturation` of a non-literal
32-bit value into an unsigned 8-bit destination emits its saturating move
but returns the walker at offset 0, not past the one emitted instruction. -/
theorem C3_counterexample :
    insertSaturation
        (Value.loc (Local.mk 0 "%v" TYPE_INT32 LocalKind.plain none none) TYPE_INT32)
        (Value.loc (Local.mk 1 "%d" TYPE_INT8 LocalKind.plain none none) TYPE_INT8)
        false 5
      = EmitResult.ok
          [Instr.move (Value.loc (Local.mk 1 "%d" TYPE_INT8 LocalKind.plain none none) TYPE_INT8)
            (Value.loc (Local.mk 0 "%v" TYPE_INT32 LocalKind.plain none none) TYPE_INT32)
            CondCode.always false (some PackMode.uint8Saturate) none [Deco.unsignedResult]]
          0 5
      ∧ (0 : Nat) ≠ 1 :=
  ⟨rfl, by omega⟩

/-- C4 (amended): for every NON-literal source, a `(bits, isSigned)` pair
outside {8-unsigned, 16-signed, 32-either} raises
`UnsupportedSaturationTarget` with nothing appended; for a compile-time
literal source and any 8/16/32-bit destination the clamped value is computed
at compile time for the requested signedness and a plain move of the literal
is emitted (so a literal source never hits the unsupported-target error);
unsigned 8-bit saturation of 300 gives 255 and signed 16-bit saturation of
-40000 gives -32768. -/
theorem C4_saturation_behaviour :
    (∀ (src dest : Value) (sg : Bool) (c : Nat),
      src.getLiteralValue = none →
      dest.ty.isSimpleType = true → dest.ty.isFloatingType = false →
      ¬ ((dest.ty.scalarBits = 8 ∧ sg = false) ∨ (dest.ty.scalarBits = 16 ∧ sg = true)
          ∨ dest.ty.scalarBits = 32) →
      insertSaturation src dest sg c
        = EmitResult.err [] CompErr.unsupportedSaturationTarget)
    ∧ (∀ (raw : Nat) (ty : DataTy) (dest : Value) (sg : Bool) (c : Nat),
      dest.ty.isSimpleType = true → dest.ty.isFloatingType = false →
      LegalBits dest.ty.scalarBits →
      insertSaturation (Value.lit raw ty) dest sg c
        = EmitResult.ok [Instr.move dest
            (Value.lit (if sg then intToRaw (satSigned dest.ty.scalarBits (signedInt raw))
              else satUnsigned dest.ty.scalarBits raw) dest.ty)
            CondCode.always false none none
            (if sg then [] else [Deco.unsignedResult])] 0 c)
    ∧ satUnsigned 8 300 = 255
    ∧ satSigned 16 (signedInt (intToRaw (-40000))) = -32768 := by
  refine ⟨?_, ?_, by decide, by decide⟩
  · intro src dest sg c hlit hsimp hfl hout
    unfold insertSaturation
    simp only []
    rw [if_neg (by rw [hsimp, hfl]; simp), hlit]
    rw [if_neg (fun h => hout (Or.inl h)),
      if_neg (fun h => hout (Or.inr (Or.inl h))),
      if_neg (fun h => hout (Or.inr (Or.inr h)))]
    rfl
  · intro raw ty dest sg c hsimp hfl hleg
    unfold insertSaturation
    simp only []
    rw [if_neg (by rw [hsimp, hfl]; simp)]
    simp only [Value.getLiteralValue]
    rcases hleg with h8 | h16 | h32
    · rw [if_pos h8, h8]; rfl
    · rw [if_neg (by omega), if_pos h16, h16]; rfl
    · rw [if_neg (by omega), if_neg (by omega), if_pos h32, h32]; rfl

/-- Counterexample to C4 as stated: `(8-bit, signed)` is outside
{8-unsigned, 16-signed, 32-either}, yet for the LITERAL source 300 the code
clamps at compile time (to 127) and emits a move instead of raising. -/
theorem C4_counterexample :
    insertSaturation (Value.lit 300 TYPE_INT32)
        (Value.loc (Local.mk 0 "%d" TYPE_INT8 LocalKind.plain none none) TYPE_INT8) true 0
      = EmitResult.ok
          [Instr.move (Value.loc (Local.mk 0 "%d" TYPE_INT8 LocalKind.plain none none) TYPE_INT8)
            (Value.lit 127 TYPE_INT8) CondCode.always false none none []] 0 0
      ∧ ¬ ((8 = 8 ∧ true = false) ∨ ((8 : Nat) = 16 ∧ true = true) ∨ (8 : Nat) = 32) :=
  ⟨rfl, by decide⟩

/-- Witness for C4: the unsupported-target error for a non-literal signed
8-bit saturation, and the compile-time clamp 300 → 255 for an unsigned
8-bit literal saturation. -/
theorem C4_witness :
    (insertSaturation
        (Value.loc (Local.mk 2 "%x" TYPE_INT32 LocalKind.plain none none) TYPE_INT32)
        (Value.loc (Local.mk 3 "%d" TYPE_INT8 LocalKind.plain none none) TYPE_INT8) true 1
      = EmitResult.err [] CompErr.unsupportedSaturationTarget)
    ∧ (insertSaturation (Value.lit 300 TYPE_INT32)
        (Value.loc (Local.mk 4 "%e" TYPE_INT8 LocalKind.plain none none) TYPE_INT8) false 2
      = EmitResult.ok
          [Instr.move (Value.loc (Local.mk 4 "%e" TYPE_INT8 LocalKind.plain none none) TYPE_INT8)
            (Value.lit 255 TYPE_INT8) CondCode.always false none none [Deco.unsignedResult]] 0 2) :=
  ⟨C4_saturation_behaviour.1 _ _ true 1 rfl rfl rfl (by decide),
    C4_saturation_behaviour.2.1 300 TYPE_INT32 _ false 2 rfl rfl (Or.inl rfl)⟩

/-- C6 (amended): `insertZeroExtension` raises `InvalidTypeWidth` exactly
when the source is 32-bit AND the destination scalar width is at most 32 but
not in {8, 16, 32}; in particular it never raises for destinations in
{8, 16, 32}, but it also does not raise for e.g. an 8-bit source into a
64-bit destination. -/
theorem C6_zero_extension_error_condition :
    ∀ (src dest : Value) (al : Bool) (cond : CondCode) (sf : Bool) (c : Nat),
      (insertZeroExtension src dest al cond sf c).isErr = true
        ↔ (src.ty.scalarBits = 32 ∧ dest.ty.scalarBits ≤ 32
            ∧ ¬ LegalBits dest.ty.scalarBits) :=
  fun src dest al cond sf c => insertZeroExtension_err_iff src dest al cond sf c

/-- Counterexample to C6 as stated: zero-extending an 8-bit value into a
64-bit destination does not raise, although 64 is not in {8, 16, 32}. -/
theorem C6_counterexample :
    (insertZeroExtension
        (Value.loc (Local.mk 0 "%v" TYPE_INT8 LocalKind.plain none none) TYPE_INT8)
        (Value.loc (Local.mk 1 "%d" (⟨64, 1, false, TyKind.simple⟩ : DataTy)
          LocalKind.plain none none) (⟨64, 1, false, TyKind.simple⟩ : DataTy))
        true CondCode.always false 0).isErr = false
      ∧ ¬ LegalBits 64 := by
  refine ⟨rfl, ?_⟩
  unfold LegalBits
  omega

/-- The final instruction of every non-failing `insertZeroExtension` path is
decorated `UNSIGNED_RESULT`. -/
theorem insertZeroExtension_last_decor (src dest : Value) (al : Bool)
    (cond : CondCode) (sf : Bool) (c : Nat) (l : List Instr) (p k : Nat)
    (h : insertZeroExtension src dest al cond sf c = EmitResult.ok l p k) :
    ∃ last, l.getLast? = some last ∧ Deco.unsignedResult ∈ last.decorOf := by
  unfold insertZeroExtension at h
  simp only [] at h
  repeat' split at h
  all_goals cases h
  all_goals exact ⟨_, rfl, List.Mem.head _⟩

theorem zextVal_preserves (sb db : Nat) (regA : Bool) (v r : Nat)
    (h : zextVal sb db regA v = Except.ok r) (hle : sb ≤ db) (hv : v < 2 ^ sb) :
    r = v := by
  unfold zextVal at h
  repeat' split at h
  all_goals try cases h
  · omega
  · omega
  · rfl
  · rfl
  · rename_i hc
    rcases hc with ⟨hdb, hra, hsb⟩
    subst hsb
    exact Nat.mod_eq_of_lt hv
  · rw [and_mask_eq_mod]
    exact Nat.mod_eq_of_lt hv

/-- C7 (amended): on every non-failing `insertZeroExtension` path the final
emitted instruction is decorated unsigned-result; the computed value is the
zero-extension of the source — exactly the source value — whenever
`srcBits ≤ destBits` and the source value is in range, and in particular
zero-extending the 8-bit value 0xFF to 32 bits yields 0x000000FF.  (On the
narrowing paths with `srcBits > destBits` the value is truncated instead.) -/
theorem C7_zero_extension_value_and_decoration :
    (∀ (src dest : Value) (al : Bool) (cond : CondCode) (sf : Bool) (c : Nat)
        (l : List Instr) (p k : Nat),
      insertZeroExtension src dest al cond sf c = EmitResult.ok l p k →
      ∃ last, l.getLast? = some last ∧ Deco.unsignedResult ∈ last.decorOf)
    ∧ (∀ (sb db : Nat) (regA : Bool) (v r : Nat),
      zextVal sb db regA v = Except.ok r → sb ≤ db → v < 2 ^ sb → r = v)
    ∧ zextVal 8 32 false 0xFF = Except.ok 0x000000FF :=
  ⟨insertZeroExtension_last_decor, zextVal_preserves, rfl⟩

/-- Counterexample to C7 as stated: on the truncating pack-mode path (32-bit
source, 8-bit destination) the computed value 0 is not the zero-extension of
the source value 256. -/
theorem C7_counterexample :
    zextVal 32 8 false 256 = Except.ok 0 ∧ (0 : Nat) ≠ 256 :=
  ⟨rfl, by omega⟩

/-- Witness for C7: the value-preservation part applied at the 8-bit value
0xFF zero-extended to 32 bits. -/
theorem C7_witness : (255 : Nat) = 255 :=
  C7_zero_extension_value_and_decoration.2.1 8 32 false 255 255 rfl
    (by omega) (by decide)

/-- The model's string equality is genuine `std::string` equality. -/
theorem listChEq_iff : ∀ (a b : List Char), listChEq a b = true ↔ a = b := by
  intro a
  induction a with
  | nil =>
    intro b
    cases b <;> simp [listChEq]
  | cons x xs ih =>
    intro b
    cases b with
    | nil => simp [listChEq]
    | cons y ys =>
      simp only [listChEq, Bool.and_eq_true, ih ys, List.cons.injEq,
        decide_eq_true_eq]

theorem strEq_iff (a b : String) : strEq a b = true ↔ a = b := by
  unfold strEq
  rw [listChEq_iff]
  cases a
  cases b
  exact ⟨fun h => congrArg String.mk h, fun h => congrArg String.data h⟩

/-- C5 (amended): for every lifetime-intrinsic call site, argument 1 is
resolved to its stack-allocation local, unwrapping one plain-move bitcast or
one alias back-reference hop — REGARDLESS of the recorded byte offset —
whose base is a stack allocation; exactly one lifetime-boundary instruction
is appended, marked as a lifetime end iff the method name is exactly
`llvm.lifetime.end` (`strEq` is genuine string equality); and
`InvalidLifetimeTarget` is raised, with nothing appended, iff argument 0 is
a positive literal and the resolved pointer is not a stack allocation. -/
theorem C5_lifetime_lowering :
    (∀ (dst : Option Local) (mname : String) (rt : DataTy) (deco : List Deco)
        (a0 : Value) (pl : Local) (pty : DataTy) (rest : List Value) (c : Nat),
      (strStarts mname "llvm.lifetime.start"
        || strStarts mname "llvm.lifetime.end") = true →
      isPositiveLiteral a0 = false →
      CallSite.mapInstruction
          ⟨dst, mname, rt, a0 :: Value.loc pl pty :: rest, deco⟩ c
        = MapResult.ok [Instr.lifetimeBoundary (lifetimeResolve pl pty)
            (strEq mname "llvm.lifetime.end")] c)
    ∧ (∀ (dst : Option Local) (mname : String) (rt : DataTy) (deco : List Deco)
        (a0 : Value) (pl : Local) (pty : DataTy) (rest : List Value) (c : Nat)
        (q : Local) (qty : DataTy),
      (strStarts mname "llvm.lifetime.start"
        || strStarts mname "llvm.lifetime.end") = true →
      isPositiveLiteral a0 = true →
      lifetimeResolve pl pty = Value.loc q qty →
      CallSite.mapInstruction
          ⟨dst, mname, rt, a0 :: Value.loc pl pty :: rest, deco⟩ c
        = if q.isStackAllocation then
            MapResult.ok [Instr.lifetimeBoundary (Value.loc q qty)
              (strEq mname "llvm.lifetime.end")] c
          else MapResult.err [] CompErr.invalidLifetimeTarget)
    ∧ (∀ a b : String, strEq a b = true ↔ a = b) := by
  refine ⟨?_, ?_, strEq_iff⟩
  · intro dst mname rt deco a0 pl pty rest c hpre hpos
    unfold CallSite.mapInstruction
    rw [if_pos hpre]
    simp only [List.get?]
    rw [hpos]
    simp only [Bool.false_eq_true, if_false]
  · intro dst mname rt deco a0 pl pty rest c q qty hpre hpos hres
    unfold CallSite.mapInstruction
    rw [if_pos hpre]
    simp only [List.get?]
    rw [hpos, hres]
    rfl

/-- Counterexample to C5 as stated: a pointer local whose alias
back-reference records byte offset 4 (not zero) onto a stack allocation is
still unwrapped by the code, so no `InvalidLifetimeTarget` is raised even
though argument 0 is a positive literal and the claim's zero-offset
resolution leaves a non-stack-allocation pointer. -/
theorem C5_counterexample :
    (CallSite.mapInstruction
        ⟨none, "llvm.lifetime.start", TYPE_VOID,
          [Value.lit 1 TYPE_INT32,
            Value.loc (Local.mk 11 "%p" (⟨32, 1, false, TyKind.pointer⟩ : DataTy)
              LocalKind.plain
              (some (Local.mk 10 "%alloc" (⟨32, 1, false, TyKind.pointer⟩ : DataTy)
                LocalKind.stackAllocation none none, 4)) none)
              (⟨32, 1, false, TyKind.pointer⟩ : DataTy)], []⟩ 0
      = MapResult.ok [Instr.lifetimeBoundary
          (Value.loc (Local.mk 10 "%alloc" (⟨32, 1, false, TyKind.pointer⟩ : DataTy)
            LocalKind.stackAllocation none none) (⟨32, 1, false, TyKind.pointer⟩ : DataTy))
          false] 0)
    ∧ specLifetimeResolveZeroOffset
        (Local.mk 11 "%p" (⟨32, 1, false, TyKind.pointer⟩ : DataTy) LocalKind.plain
          (some (Local.mk 10 "%alloc" (⟨32, 1, false, TyKind.pointer⟩ : DataTy)
            LocalKind.stackAllocation none none, 4)) none)
        (⟨32, 1, false, TyKind.pointer⟩ : DataTy)
      = Value.loc (Local.mk 11 "%p" (⟨32, 1, false, TyKind.pointer⟩ : DataTy)
          LocalKind.plain
          (some (Local.mk 10 "%alloc" (⟨32, 1, false, TyKind.pointer⟩ : DataTy)
            LocalKind.stackAllocation none none, 4)) none)
          (⟨32, 1, false, TyKind.pointer⟩ : DataTy)
    ∧ (Local.mk 11 "%p" (⟨32, 1, false, TyKind.pointer⟩ : DataTy) LocalKind.plain
        (some (Local.mk 10 "%alloc" (⟨32, 1, false, TyKind.pointer⟩ : DataTy)
          LocalKind.stackAllocation none none, 4)) none).isStackAllocation = false
    ∧ isPositiveLiteral (Value.lit 1 TYPE_INT32) = true :=
  ⟨rfl, rfl, rfl, rfl⟩

/-- Witness for C5: the no-raise branch applied to a lifetime call on a
direct stack allocation. -/
theorem C5_witness :
    CallSite.mapInstruction
        ⟨none, "llvm.lifetime.end", TYPE_VOID,
          [Value.lit 0 TYPE_INT32,
            Value.loc (Local.mk 20 "%a" (⟨32, 1, false, TyKind.pointer⟩ : DataTy)
              LocalKind.stackAllocation none none)
              (⟨32, 1, false, TyKind.pointer⟩ : DataTy)], []⟩ 3
      = MapResult.ok [Instr.lifetimeBoundary
          (lifetimeResolve (Local.mk 20 "%a" (⟨32, 1, false, TyKind.pointer⟩ : DataTy)
            LocalKind.stackAllocation none none) (⟨32, 1, false, TyKind.pointer⟩ : DataTy))
          (strEq "llvm.lifetime.end" "llvm.lifetime.end")] 3 :=
  C5_lifetime_lowering.1 none "llvm.lifetime.end" TYPE_VOID []
    (Value.lit 0 TYPE_INT32) _ _ [] 3 (by decide) (by decide)

/-- C9: `Selection` with a scalar condition and (same-typed) vector options
broadcasts the condition to all 16 lanes, commits the broadcast with the
flag-setting move (whose source is the full 16-lane replication, so the flag
update covers all lanes), then emits exactly two predicated moves of the
options gated flag-clear / flag-set; otherwise the condition is moved
directly into the flag register. -/
theorem C9_selection_lowering :
    (∀ (dest : Local) (cond opt1 opt2 : Value) (c : Nat),
      opt1.ty = opt2.ty →
      cond.ty.isScalarType = true → opt1.ty.isScalarType = false →
      Selection.mapInstruction ⟨dest, cond, opt1, opt2⟩ c
        = MapResult.ok
            [Instr.replicateWrite (Value.loc (freshLocal c (cond.ty.toVectorType 16)
                "%replicate") (cond.ty.toVectorType 16)) cond,
              Instr.move NOP_REGISTER (Value.loc (freshLocal c (cond.ty.toVectorType 16)
                "%replicate") (cond.ty.toVectorType 16)) CondCode.always true none none [],
              Instr.move (Value.loc dest opt1.ty) opt1 CondCode.zeroClear false none none [],
              Instr.move (Value.loc dest opt2.ty) opt2 CondCode.zeroSet false none none []]
            (c + 1))
    ∧ (∀ (dest : Local) (cond opt1 opt2 : Value) (c : Nat),
      (cond.ty.isScalarType && (!opt1.ty.isScalarType || !opt2.ty.isScalarType)) = false →
      Selection.mapInstruction ⟨dest, cond, opt1, opt2⟩ c
        = MapResult.ok
            [Instr.move NOP_REGISTER cond CondCode.always true none none [],
              Instr.move (Value.loc dest opt1.ty) opt1 CondCode.zeroClear false none none [],
              Instr.move (Value.loc dest opt2.ty) opt2 CondCode.zeroSet false none none []]
            c) := by
  constructor
  · intro dest cond opt1 opt2 c hty hcs ho1
    unfold Selection.mapInstruction
    rw [if_pos (by rw [hcs, ho1, ← hty, ho1]; rfl)]
    rfl
  · intro dest cond opt1 opt2 c hcond
    unfold Selection.mapInstruction
    rw [if_neg (by rw [hcond]; exact Bool.false_ne_true)]

/-- Witness for C9: the broadcast branch at a concrete scalar condition with
`int32x16` options. -/
theorem C9_witness :
    Selection.mapInstruction
        ⟨Local.mk 30 "%sel" (⟨32, 16, false, TyKind.simple⟩ : DataTy) LocalKind.plain none none,
          Value.loc (Local.mk 31 "%c" TYPE_BOOL LocalKind.plain none none) TYPE_BOOL,
          Value.loc (Local.mk 32 "%o1" (⟨32, 16, false, TyKind.simple⟩ : DataTy)
            LocalKind.plain none none) (⟨32, 16, false, TyKind.simple⟩ : DataTy),
          Value.loc (Local.mk 33 "%o2" (⟨32, 16, false, TyKind.simple⟩ : DataTy)
            LocalKind.plain none none) (⟨32, 16, false, TyKind.simple⟩ : DataTy)⟩ 7
      = MapResult.ok
          [Instr.replicateWrite (Value.loc (freshLocal 7 (TYPE_BOOL.toVectorType 16)
              "%replicate") (TYPE_BOOL.toVectorType 16))
              (Value.loc (Local.mk 31 "%c" TYPE_BOOL LocalKind.plain none none) TYPE_BOOL),
            Instr.move NOP_REGISTER (Value.loc (freshLocal 7 (TYPE_BOOL.toVectorType 16)
              "%replicate") (TYPE_BOOL.toVectorType 16)) CondCode.always true none none [],
            Instr.move (Value.loc (Local.mk 30 "%sel" (⟨32, 16, false, TyKind.simple⟩ : DataTy)
              LocalKind.plain none none) (⟨32, 16, false, TyKind.simple⟩ : DataTy))
              (Value.loc (Local.mk 32 "%o1" (⟨32, 16, false, TyKind.simple⟩ : DataTy)
                LocalKind.plain none none) (⟨32, 16, false, TyKind.simple⟩ : DataTy))
              CondCode.zeroClear false none none [],
            Instr.move (Value.loc (Local.mk 30 "%sel" (⟨32, 16, false, TyKind.simple⟩ : DataTy)
              LocalKind.plain none none) (⟨32, 16, false, TyKind.simple⟩ : DataTy))
              (Value.loc (Local.mk 33 "%o2" (⟨32, 16, false, TyKind.simple⟩ : DataTy)
                LocalKind.plain none none) (⟨32, 16, false, TyKind.simple⟩ : DataTy))
              CondCode.zeroSet false none none []]
          8 :=
  C9_selection_lowering.1 _ _ _ _ 7 rfl rfl rfl

/-- C10: `CallSite::getAllLocals` reads `dest->name` before any presence
check, so for every CallSite built through a destination-less constructor
the access has no value (a null dereference in the C++), whereas any
destination-carrying CallSite is fine — even though destination-less
CallSites are otherwise valid and lower successfully through the generic
call path. -/
theorem C10_getAllLocals_null_dest :
    (∀ (mname : String) (rt : DataTy) (args : List Value),
      (CallSite.noDest mname rt args).getAllLocals = none)
    ∧ (∀ (mname : String) (rt : DataTy) (pc : Nat) (args : List Value) (cs : CallSite),
      CallSite.ofMethod none mname rt pc args = Except.ok cs →
      cs.getAllLocals = none)
    ∧ (∀ (d : Local) (mname : String) (rt : DataTy) (args : List Value),
      (CallSite.withDest d mname rt args).getAllLocals ≠ none)
    ∧ (∀ (mname : String) (rt : DataTy) (args : List Value) (c : Nat),
      strStarts mname "llvm.lifetime.start" = false →
      strStarts mname "llvm.lifetime.end" = false →
      strStarts mname "llvm.fmuladd" = false →
      strStarts mname "llvm.memcpy" = false →
      strStarts mname "llvm.memset" = false →
      strStarts mname "llvm.bswap" = false →
      strStarts mname "shuffle2" = false →
      strStarts mname "mem_fence" = false →
      strStarts mname "read_mem_fence" = false →
      strStarts mname "write_mem_fence" = false →
      (CallSite.noDest mname rt args).mapInstruction c
        = MapResult.ok [Instr.methodCall none mname args []] c) := by
  refine ⟨fun _ _ _ => rfl, ?_, ?_, ?_⟩
  · intro mname rt pc args cs h
    unfold CallSite.ofMethod at h
    split at h
    · cases h
      rfl
    · cases h
  · intro d mname rt args
    simp [CallSite.getAllLocals, CallSite.withDest]
  · intro mname rt args c h1 h2 h3 h4 h5 h6 h7 h8 h9 h10
    unfold CallSite.mapInstruction
    simp only [CallSite.noDest, h1, h2, h3, h4, h5, h6, h7, h8, h9, h10,
      Bool.or_self, Bool.false_eq_true, if_false]
    rfl

/-- Witness for C10: a concrete destination-less generic call. -/
theorem C10_witness :
    (CallSite.noDest "barrier" TYPE_VOID []).getAllLocals = none
      ∧ (CallSite.noDest "barrier" TYPE_VOID []).mapInstruction 0
          = MapResult.ok [Instr.methodCall none "barrier" [] []] 0 :=
  ⟨C10_getAllLocals_null_dest.1 "barrier" TYPE_VOID [],
    C10_getAllLocals_null_dest.2.2.2 "barrier" TYPE_VOID [] 0
      (by decide) (by decide) (by decide) (by decide) (by decide)
      (by decide) (by decide) (by decide) (by decide) (by decide)⟩

theorem switchCases_length (cond : Value) :
    ∀ (cases : List (Int × String)) (c : Nat),
      (switchCases cond c cases).length = 2 * cases.length := by
  intro cases
  induction cases with
  | nil => intro c; rfl
  | cons p rest ih =>
    intro c
    obtain ⟨v, lbl⟩ := p
    simp only [switchCases, List.length_cons, ih]
    omega

theorem switchCases_get (cond : Value) :
    ∀ (cases : List (Int × String)) (c : Nat) (i : Nat) (hi : i < cases.length),
      (switchCases cond c cases).get? (2 * i)
          = some (Instr.comparison COMP_EQ
              (Value.loc (freshLocal (c + i) TYPE_BOOL "%switch") TYPE_BOOL) cond
              (Value.lit (intToRaw (cases.get ⟨i, hi⟩).1) TYPE_INT32) [])
        ∧ (switchCases cond c cases).get? (2 * i + 1)
          = some (Instr.branch (labelLocal (cases.get ⟨i, hi⟩).2) CondCode.zeroClear
              (Value.loc (freshLocal (c + i) TYPE_BOOL "%switch") TYPE_BOOL)) := by
  intro cases
  induction cases with
  | nil =>
    intro c i hi
    exact absurd hi (by simp)
  | cons p rest ih =>
    intro c i hi
    obtain ⟨v, lbl⟩ := p
    cases i with
    | zero => exact ⟨rfl, rfl⟩
    | succ j =>
      have hj : j < rest.length := by simpa using hi
      have hstep := ih (c + 1) j hj
      rw [show c + 1 + j = c + (j + 1) by omega] at hstep
      have h2 : 2 * (j + 1) = 2 * j + 1 + 1 := by omega
      constructor
      · rw [h2]
        show (switchCases cond (c + 1) rest).get? (2 * j) = _
        exact hstep.1
      · rw [h2]
        show (switchCases cond (c + 1) rest).get? (2 * j + 1) = _
        exact hstep.2

/-- C8: `Switch` lowering appends, for each case value/label pair in the
case table's iteration order, exactly one equality comparison into a fresh
boolean local (fresh-name counter `c + i` for case `i`) followed by exactly
one flag-clear predicated branch to that case's label, and after all cases
exactly one unconditional branch to the default label; a two-case switch
yields exactly 2 compare+branch pairs and then the default branch, in that
order. -/
theorem C8_switch_lowering :
    (∀ (cond : Value) (dflt : String) (cases : List (Int × String)) (c : Nat),
      SwitchInstr.mapInstruction ⟨cond, dflt, cases⟩ c
          = MapResult.ok
              ((SwitchInstr.mapInstruction ⟨cond, dflt, cases⟩ c).emittedOf)
              (c + cases.length)
        ∧ ((SwitchInstr.mapInstruction ⟨cond, dflt, cases⟩ c).emittedOf).length
            = 2 * cases.length + 1
        ∧ (∀ i (hi : i < cases.length),
            ((SwitchInstr.mapInstruction ⟨cond, dflt, cases⟩ c).emittedOf).get? (2 * i)
              = some (Instr.comparison COMP_EQ
                  (Value.loc (freshLocal (c + i) TYPE_BOOL "%switch") TYPE_BOOL) cond
                  (Value.lit (intToRaw (cases.get ⟨i, hi⟩).1) TYPE_INT32) [])
              ∧ ((SwitchInstr.mapInstruction ⟨cond, dflt, cases⟩ c).emittedOf).get?
                  (2 * i + 1)
                = some (Instr.branch (labelLocal (cases.get ⟨i, hi⟩).2)
                    CondCode.zeroClear
                    (Value.loc (freshLocal (c + i) TYPE_BOOL "%switch") TYPE_BOOL)))
        ∧ ((SwitchInstr.mapInstruction ⟨cond, dflt, cases⟩ c).emittedOf).get?
            (2 * cases.length)
            = some (Instr.branch (labelLocal dflt) CondCode.always BOOL_TRUE))
    ∧ SwitchInstr.mapInstruction
        ⟨Value.loc (Local.mk 40 "%x" TYPE_INT32 LocalKind.plain none none) TYPE_INT32,
          "default", [((1 : Int), "L1"), ((2 : Int), "L2")]⟩ 0
      = MapResult.ok
          [Instr.comparison COMP_EQ (Value.loc (freshLocal 0 TYPE_BOOL "%switch") TYPE_BOOL)
            (Value.loc (Local.mk 40 "%x" TYPE_INT32 LocalKind.plain none none) TYPE_INT32)
            (Value.lit 1 TYPE_INT32) [],
          Instr.branch (labelLocal "L1") CondCode.zeroClear
            (Value.loc (freshLocal 0 TYPE_BOOL "%switch") TYPE_BOOL),
          Instr.comparison COMP_EQ (Value.loc (freshLocal 1 TYPE_BOOL "%switch") TYPE_BOOL)
            (Value.loc (Local.mk 40 "%x" TYPE_INT32 LocalKind.plain none none) TYPE_INT32)
            (Value.lit 2 TYPE_INT32) [],
          Instr.branch (labelLocal "L2") CondCode.zeroClear
            (Value.loc (freshLocal 1 TYPE_BOOL "%switch") TYPE_BOOL),
          Instr.branch (labelLocal "default") CondCode.always BOOL_TRUE] 2 := by
  constructor
  · intro cond dflt cases c
    show _ ∧ (switchCases cond c cases
          ++ [Instr.branch (labelLocal dflt) CondCode.always BOOL_TRUE]).length = _
        ∧ _ ∧ _
    refine ⟨rfl, ?_, ?_, ?_⟩
    · rw [List.length_append, switchCases_length]
      rfl
    · intro i hi
      constructor
      · show (switchCases cond c cases
            ++ [Instr.branch (labelLocal dflt) CondCode.always BOOL_TRUE]).get? (2 * i) = _
        rw [List.get?_append (by rw [switchCases_length]; omega)]
        exact (switchCases_get cond cases c i hi).1
      · show (switchCases cond c cases
            ++ [Instr.branch (labelLocal dflt) CondCode.always BOOL_TRUE]).get?
              (2 * i + 1) = _
        rw [List.get?_append (by rw [switchCases_length]; omega)]
        exact (switchCases_get cond cases c i hi).2
    · show (switchCases cond c cases
          ++ [Instr.branch (labelLocal dflt) CondCode.always BOOL_TRUE]).get?
            (2 * cases.length) = _
      rw [List.get?_append_right (by rw [switchCases_length]),
        switchCases_length]
      simp
  · rfl

/-- Witness for C8: the per-case characterization applied at case index 0 of
a concrete one-case switch table. -/
theorem C8_witness :
    ((SwitchInstr.mapInstruction
        ⟨Value.lit 3 TYPE_INT32, "D", [((5 : Int), "A")]⟩ 4).emittedOf).get? 0
        = some (Instr.comparison COMP_EQ
            (Value.loc (freshLocal 4 TYPE_BOOL "%switch") TYPE_BOOL)
            (Value.lit 3 TYPE_INT32) (Value.lit 5 TYPE_INT32) [])
      ∧ ((SwitchInstr.mapInstruction
          ⟨Value.lit 3 TYPE_INT32, "D", [((5 : Int), "A")]⟩ 4).emittedOf).get? 1
        = some (Instr.branch (labelLocal "A") CondCode.zeroClear
            (Value.loc (freshLocal 4 TYPE_BOOL "%switch") TYPE_BOOL)) :=
  (C8_switch_lowering.1 (Value.lit 3 TYPE_INT32) "D"
    [((5 : Int), "A")] 4).2.2.1 0 (by decide)

/-- C2 (amended): every instruction-lowering rule except
`ContainerInsertion` is atomic — whenever `mapInstruction` raises a
`CompilationError`, nothing has been appended; `ContainerInsertion` with a
non-vector container and a non-zero/non-literal index appends the
whole-container copy move BEFORE detecting the unsupported index and
raising `UnsupportedContainerOperation` (`ContainerExtraction` checks first
and is atomic). -/
theorem lifetimeCheck_err (p : Value) (b : Bool) (c : Nat) (em : List Instr)
    (e : CompErr) (h : lifetimeCheck p b c = MapResult.err em e) : em = [] := by
  cases p <;> simp only [lifetimeCheck] at h
  case loc q qty =>
    split at h
    · cases h
    · cases h
      rfl
  all_goals cases h

theorem C2_lowering_atomicity :
    (∀ (instr : LLVMInstr) (c : Nat) (em : List Instr) (e : CompErr),
      instr.isContainerInsertion = false →
      instr.mapInstruction c = MapResult.err em e → em = [])
    ∧ (∀ (ci : ContainerInsertion) (c : Nat) (em : List Instr) (e : CompErr),
      (LLVMInstr.containerInsertion ci).mapInstruction c = MapResult.err em e →
      em = [mkMove (Value.loc ci.dest ci.container.ty) ci.container]
        ∧ e = CompErr.unsupportedContainerOperation) := by
  constructor
  · intro instr c em e hni herr
    cases instr with
    | callSite cs =>
      simp only [LLVMInstr.mapInstruction] at herr
      unfold CallSite.mapInstruction at herr
      repeat' split at herr
      all_goals first
        | (cases herr; rfl)
        | cases herr
        | exact lifetimeCheck_err _ _ _ _ _ herr
    | copy cp =>
      simp only [LLVMInstr.mapInstruction] at herr
      unfold Copy.mapInstruction at herr
      split at herr
      · split at herr
        · cases herr
        · rename_i l e' heq
          have hs := (insertBitcastE_spec cp.orig cp.dest [] c).2.2
          rw [heq] at hs
          cases hs
      · split at herr
        · split at herr
          · cases herr
          · cases herr
        · cases herr
    | unaryOp u =>
      simp only [LLVMInstr.mapInstruction] at herr
      unfold UnaryOperator.mapInstruction at herr
      split at herr <;> cases herr
    | binaryOp b =>
      simp only [LLVMInstr.mapInstruction] at herr
      unfold BinaryOperator.mapInstruction at herr
      split at herr <;> cases herr
    | indexOf x =>
      simp only [LLVMInstr.mapInstruction] at herr
      unfold IndexOf.mapInstruction at herr
      cases herr
    | comparison cmp =>
      simp only [LLVMInstr.mapInstruction] at herr
      unfold ComparisonInstr.mapInstruction at herr
      cases herr
    | containerInsertion ci =>
      simp [LLVMInstr.isContainerInsertion] at hni
    | containerExtraction ce =>
      simp only [LLVMInstr.mapInstruction] at herr
      unfold ContainerExtraction.mapInstruction at herr
      split at herr
      · cases herr
      · cases herr
        rfl
    | valueReturn r =>
      simp only [LLVMInstr.mapInstruction] at herr
      unfold ValueReturn.mapInstruction at herr
      split at herr <;> cases herr
    | shuffleVector sv =>
      simp only [LLVMInstr.mapInstruction] at herr
      unfold ShuffleVector.mapInstruction at herr
      cases herr
    | label lb =>
      simp only [LLVMInstr.mapInstruction] at herr
      unfold LLVMLabel.mapInstruction at herr
      cases herr
    | phiNode p =>
      simp only [LLVMInstr.mapInstruction] at herr
      unfold PhiNodeInstr.mapInstruction at herr
      cases herr
    | selection sel =>
      simp only [LLVMInstr.mapInstruction] at herr
      unfold Selection.mapInstruction at herr
      split at herr <;> cases herr
    | branch b =>
      simp only [LLVMInstr.mapInstruction] at herr
      unfold BranchInstr.mapInstruction at herr
      repeat' split at herr
      all_goals cases herr
    | switch sw =>
      simp only [LLVMInstr.mapInstruction] at herr
      unfold SwitchInstr.mapInstruction at herr
      cases herr
  · intro ci c em e herr
    simp only [LLVMInstr.mapInstruction] at herr
    unfold ContainerInsertion.mapInstruction at herr
    simp only [] at herr
    split at herr
    · cases herr
    · cases herr
      exact ⟨rfl, rfl⟩

/-- Counterexample to C2 as stated: inserting into a non-vector (array)
container at a non-literal index raises, but only after the whole-container
copy move has already been appended — the sequence is left half-emitted. -/
theorem C2_counterexample :
    (LLVMInstr.containerInsertion
        ⟨Local.mk 50 "%out" (⟨32, 4, false, TyKind.complexOther⟩ : DataTy)
            LocalKind.plain none none,
          Value.loc (Local.mk 51 "%arr" (⟨32, 4, false, TyKind.complexOther⟩ : DataTy)
            LocalKind.plain none none) (⟨32, 4, false, TyKind.complexOther⟩ : DataTy),
          INT_ZERO,
          Value.loc (Local.mk 52 "%i" TYPE_INT32 LocalKind.plain none none)
            TYPE_INT32⟩).mapInstruction 0
      = MapResult.err
          [mkMove
            (Value.loc (Local.mk 50 "%out" (⟨32, 4, false, TyKind.complexOther⟩ : DataTy)
              LocalKind.plain none none) (⟨32, 4, false, TyKind.complexOther⟩ : DataTy))
            (Value.loc (Local.mk 51 "%arr" (⟨32, 4, false, TyKind.complexOther⟩ : DataTy)
              LocalKind.plain none none) (⟨32, 4, false, TyKind.complexOther⟩ : DataTy))]
          CompErr.unsupportedContainerOperation
    ∧ [mkMove
        (Value.loc (Local.mk 50 "%out" (⟨32, 4, false, TyKind.complexOther⟩ : DataTy)
          LocalKind.plain none none) (⟨32, 4, false, TyKind.complexOther⟩ : DataTy))
        (Value.loc (Local.mk 51 "%arr" (⟨32, 4, false, TyKind.complexOther⟩ : DataTy)
          LocalKind.plain none none) (⟨32, 4, false, TyKind.complexOther⟩ : DataTy))]
      ≠ ([] : List Instr) :=
  ⟨rfl, List.cons_ne_nil _ _⟩

/-- Witness for C2: the atomicity part applied to a failing
`ContainerExtraction`, which appends nothing. -/
theorem C2_witness : ([] : List Instr) = [] :=
  C2_lowering_atomicity.1
    (LLVMInstr.containerExtraction
      ⟨Local.mk 60 "%e" TYPE_INT32 LocalKind.plain none none,
        Value.loc (Local.mk 61 "%arr2" (⟨32, 4, false, TyKind.complexOther⟩ : DataTy)
          LocalKind.plain none none) (⟨32, 4, false, TyKind.complexOther⟩ : DataTy),
        Value.loc (Local.mk 62 "%j" TYPE_INT32 LocalKind.plain none none) TYPE_INT32⟩)
    0 [] CompErr.unsupportedContainerOperation rfl rfl

end VC4C
